import Mathlib

/-!
Verification development for the transaction-reconciliation engine
(`matching/engine.py`, `matching/llm_helper.py`,
`backend/api/routes/matching.py`, `backend/api/models.py`).

Conventions of the shallow embedding:
* Python floats are modelled as `ℚ`; dates as integer day numbers
  (date-only granularity, `(d1 - d2).days` becomes integer subtraction).
* The external fuzzy string-similarity functions from the `rapidfuzz`
  library (`fuzz.token_set_ratio`, `fuzz.ratio`, both divided by 100) and
  the library function `math.exp` are not code of this repository; they are
  passed in as an explicit parameter record `ExtSim`.  Concrete
  instantiations used in counterexamples only rely on values the real
  library is guaranteed to produce (identical strings give similarity 1,
  strings with fully disjoint character sets give similarity 0).
* Human-readable explanation strings built by the scorer do not influence
  any control flow or any claim; the scorer embedding keeps scores,
  confidence bands and component scores and omits the explanation lists.
-/

/-- A normalized transaction (the dict produced by import normalization). -/
structure Txn where
  id : String
  date : Int
  vendor : String
  description : String
  amount : ℚ
  txn_type : String
  reference : Option String
  deriving Repr, DecidableEq

/-- External (out-of-repository) similarity functions: `rapidfuzz`'s
`fuzz.token_set_ratio`/100 and `fuzz.ratio`/100, and `x ↦ exp (-x)` from
`math.exp`. -/
structure ExtSim where
  token_set_ratio : String → String → ℚ
  fuzz_ratio : String → String → ℚ
  exp_neg : ℚ → ℚ

/-- The `MatchingEngine` object: `__init__` stores the four configuration
values without any validation (`matching/engine.py` lines 45-64). -/
structure MatchingEngine where
  vendor_threshold : ℚ
  amount_tolerance : ℚ
  date_window : Int
  require_reference : Bool
  deriving Repr, DecidableEq

/-- `MatchingEngine.__init__`: plain field assignment, no checks, no
clamping. -/
def MatchingEngine.init (vendor_threshold amount_tolerance : ℚ)
    (date_window : Int) (require_reference : Bool) : MatchingEngine :=
  { vendor_threshold := vendor_threshold
    amount_tolerance := amount_tolerance
    date_window := date_window
    require_reference := require_reference }

/-- `MatchingEngine.get_config` returns the stored configuration verbatim. -/
def MatchingEngine.get_config (e : MatchingEngine) : ℚ × ℚ × Int × Bool :=
  (e.vendor_threshold, e.amount_tolerance, e.date_window, e.require_reference)

/-- The pydantic `MatchingConfig` model (`backend/api/models.py` lines
63-68): four plain fields, no validators, no range constraints. -/
structure MatchingConfig where
  vendor_threshold : ℚ
  amount_tolerance : ℚ
  date_window : Int
  require_reference : Bool
  deriving Repr, DecidableEq

/-- Constructing a `MatchingConfig` stores the given values verbatim
(pydantic performs type coercion only; there are no value validators). -/
def MatchingConfig.mk' (vendor_threshold amount_tolerance : ℚ)
    (date_window : Int) (require_reference : Bool) : MatchingConfig :=
  { vendor_threshold := vendor_threshold
    amount_tolerance := amount_tolerance
    date_window := date_window
    require_reference := require_reference }

/-- `MatchingEngine.compute_amount_score` (score component only). -/
def compute_amount_score (ext : ExtSim) (e : MatchingEngine)
    (ledger_amount bank_amount : ℚ) : ℚ :=
  let diff := |ledger_amount - bank_amount|
  if diff = 0 then 1
  else if diff ≤ e.amount_tolerance then 1 - (diff / e.amount_tolerance) * (1/10)
  else max 0 (ext.exp_neg (diff / 10))

/-- `MatchingEngine.compute_date_score` (score component only). -/
def compute_date_score (e : MatchingEngine) (ledger_date bank_date : Int) : ℚ :=
  let diff_days : Int := |ledger_date - bank_date|
  if diff_days = 0 then 1
  else if diff_days ≤ e.date_window then
    1 - ((diff_days : ℚ) / (e.date_window : ℚ)) * (1/2)
  else max 0 ((3/10) - ((diff_days - e.date_window : Int) : ℚ) * (1/10))

/-- Python `str.lower()`: character-wise lower-casing. -/
def pyLower (s : String) : String := ⟨s.data.map Char.toLower⟩

/-- Python `str.upper()`: character-wise upper-casing. -/
def pyUpper (s : String) : String := ⟨s.data.map Char.toUpper⟩

/-- Python `str.strip()`: remove leading and trailing whitespace. -/
def pyStrip (s : String) : String :=
  ⟨((s.data.dropWhile Char.isWhitespace).reverse.dropWhile
    Char.isWhitespace).reverse⟩

/-- `MatchingEngine.compute_vendor_score`: lower-case, strip, then the
external token-set ratio. -/
def compute_vendor_score (ext : ExtSim) (ledger_vendor bank_vendor : String) : ℚ :=
  ext.token_set_ratio (pyStrip (pyLower ledger_vendor))
    (pyStrip (pyLower bank_vendor))

/-- Python truthiness of `ref and str(ref).strip()`: the reference is
present iff it is not `None` and not whitespace-only. -/
def hasRef (r : Option String) : Bool :=
  match r with
  | none => false
  | some s => !(pyStrip s = "")

/-- `MatchingEngine.compute_reference_score`. -/
def compute_reference_score (ext : ExtSim) (ledger_ref bank_ref : Option String) : ℚ :=
  if ¬hasRef ledger_ref ∧ ¬hasRef bank_ref then 1/2
  else if ¬hasRef ledger_ref ∨ ¬hasRef bank_ref then 3/10
  else
    let ref1 := pyUpper (pyStrip (ledger_ref.getD ""))
    let ref2 := pyUpper (pyStrip (bank_ref.getD ""))
    if ref1 = ref2 then 1
    else
      let similarity := ext.fuzz_ratio ref1 ref2
      if similarity > 4/5 then similarity else 0

/-- Python `t or 'money_out'`: an empty (falsy) type string defaults to
`money_out`. -/
def normType (t : String) : String :=
  if t = "" then "money_out" else t

/-- `MatchingEngine.compute_txn_type_score`. -/
def compute_txn_type_score (ledger_type bank_type : String) : ℚ :=
  if normType ledger_type = normType bank_type then 1 else 0

/-- Per-dimension component scores (the `component_scores` dict). -/
structure ComponentScores where
  amount : ℚ
  date : ℚ
  vendor : ℚ
  reference : ℚ
  txn_type : ℚ
  deriving Repr, DecidableEq

/-- A `MatchCandidate` as produced by `compute_match_score` (explanation
strings omitted, see the file header). -/
structure MatchCandidate where
  ledger_txn : Txn
  bank_txn : Txn
  score : ℚ
  confidence : String
  component_scores : ComponentScores
  deriving Repr, DecidableEq

/-- `MatchingEngine.compute_match_score` (`matching/engine.py` lines
212-306): component scores, hard veto on transaction-type mismatch,
reference veto when required, weighted sum (weights .35/.25/.30/.05/.05),
then the vendor-threshold halving penalty, then the confidence band. -/
def compute_match_score (ext : ExtSim) (e : MatchingEngine)
    (ledger_txn bank_txn : Txn) : MatchCandidate :=
  let txn_type_score := compute_txn_type_score ledger_txn.txn_type bank_txn.txn_type
  let amount_score := compute_amount_score ext e ledger_txn.amount bank_txn.amount
  let date_score := compute_date_score e ledger_txn.date bank_txn.date
  let vendor_score := compute_vendor_score ext ledger_txn.vendor bank_txn.vendor
  let ref_score := compute_reference_score ext ledger_txn.reference bank_txn.reference
  let total0 : ℚ :=
    if txn_type_score = 0 then 1/10
    else if e.require_reference ∧ ref_score < 4/5 then 1/10
    else
      (35/100) * amount_score + (25/100) * date_score + (30/100) * vendor_score
        + (5/100) * ref_score + (5/100) * txn_type_score
  let total : ℚ := if vendor_score < e.vendor_threshold then total0 * (1/2) else total0
  let confidence := if total ≥ 85/100 then "High"
    else if total ≥ 65/100 then "Medium" else "Low"
  { ledger_txn := ledger_txn
    bank_txn := bank_txn
    score := total
    confidence := confidence
    component_scores :=
      { amount := amount_score, date := date_score, vendor := vendor_score
        reference := ref_score, txn_type := txn_type_score } }

/-- Stable insertion used by `stableSortDesc`: places `x` after every
element whose key is ≥ its own. -/
def insertByDesc (key : α → ℚ) (x : α) : List α → List α
  | [] => [x]
  | y :: ys => if key y < key x then x :: y :: ys else y :: insertByDesc key x ys

/-- Python's `list.sort(key=..., reverse=True)`: a stable sort, descending
by key.  Stability determines the output uniquely, so this insertion-sort
formulation is extensionally the sort the source performs. -/
def stableSortDesc (key : α → ℚ) (l : List α) : List α :=
  l.foldl (fun acc x => insertByDesc key x acc) []

/-- `MatchingEngine.find_candidates` (`matching/engine.py` lines 308-343):
skip bank transactions whose id is already claimed, score the rest, sort by
score descending (stable), keep the first `top_k`. -/
def find_candidates (ext : ExtSim) (e : MatchingEngine) (ledger_txn : Txn)
    (bank_transactions : List Txn) (matched_bank_ids : Finset String)
    (top_k : Nat) : List MatchCandidate :=
  let candidates :=
    (bank_transactions.filter (fun bt => bt.id ∉ matched_bank_ids)).map
      (compute_match_score ext e ledger_txn)
  (stableSortDesc (fun c => c.score) candidates).take top_k

/-- `MatchingEngine.find_all_candidates` (`matching/engine.py` lines
345-371): best single candidate per ledger transaction, with the claimed-id
set left at its default (the empty set), filtered by `min_score`, then
sorted by score descending. -/
def find_all_candidates (ext : ExtSim) (e : MatchingEngine)
    (ledger_transactions bank_transactions : List Txn) (min_score : ℚ) :
    List MatchCandidate :=
  let candidates := ledger_transactions.filterMap (fun lt =>
    match find_candidates ext e lt bank_transactions ∅ 1 with
    | [] => none
    | c :: _ => if c.score ≥ min_score then some c else none)
  stableSortDesc (fun c => c.score) candidates

/-- Outcome of the external decision capability for one call:
`unavailable` models `is_llm_configured()` returning false, `failed` models
an exception anywhere in the call/parse, and `ok` models a well-formed
response (1-based selection or none, confidence, explanation text). -/
inductive LLMOutcome where
  | unavailable
  | failed (msg : String)
  | ok (selected : Option Int) (confidence : ℚ) (explanation : String)

/-- Fallback `Txn` standing in for an impossible out-of-range access
(`candidates[selected_idx]` in the source can only be reached in range). -/
def dummyTxn : Txn :=
  { id := "", date := 0, vendor := "", description := "", amount := 0
    txn_type := "", reference := none }

/-- Fallback `MatchCandidate`, see `dummyTxn`. -/
def dummyCandidate : MatchCandidate :=
  { ledger_txn := dummyTxn, bank_txn := dummyTxn, score := 0
    confidence := "Low"
    component_scores :=
      { amount := 0, date := 0, vendor := 0, reference := 0, txn_type := 0 } }

/-- `select_best_match` (`matching/llm_helper.py` lines 362-476).
Returns `(selected 0-based index or none, explanation, confidence)`:
* capability unavailable: select index 0 iff the top candidate's score is
  ≥ 0.5, confidence = that score, else none with confidence 0;
* empty candidate list (capability configured): none;
* well-formed response with a 1-based selection `k` with `k > 0` and
  `k - 1` in range: select `k - 1` with blended confidence
  `0.6 * response confidence + 0.4 * heuristic score of the selection`;
  any other response: none with the raw response confidence;
* call failed: select index 0 iff the top score is ≥ 0.6, confidence =
  that score, else none with confidence 0. -/
def select_best_match (out : LLMOutcome) (candidates : List MatchCandidate) :
    Option Nat × String × ℚ :=
  match out with
  | .unavailable =>
    match candidates with
    | c :: _ =>
      if c.score ≥ 1/2 then
        (some 0, "Best heuristic match selected (LLM unavailable)", c.score)
      else (none, "No confident match found (LLM unavailable)", 0)
    | [] => (none, "No confident match found (LLM unavailable)", 0)
  | .failed msg =>
    match candidates with
    | [] => (none, "No candidates to evaluate", 0)
    | c :: _ =>
      if c.score ≥ 3/5 then
        (some 0, "Best heuristic match (LLM error: " ++ msg ++ ")", c.score)
      else (none, "No confident match (LLM error: " ++ msg ++ ")", 0)
  | .ok sel conf expl =>
    match candidates with
    | [] => (none, "No candidates to evaluate", 0)
    | _ :: _ =>
      match sel with
      | some k =>
        if 0 < k then
          let idx := (k - 1).toNat
          if idx < candidates.length then
            (some idx, expl,
              conf * (3/5) + (candidates.getD idx dummyCandidate).score * (2/5))
          else (none, expl, conf)
        else (none, expl, conf)
      | none => (none, expl, conf)

/-- One entry of the orchestrators' result buckets (a `MatchResult` dict;
`bank_txn = none` means "no match found"). -/
structure BatchResult where
  ledger_txn : Txn
  bank_txn : Option Txn
  llm_explanation : String
  confidence : ℚ
  heuristic_score : ℚ
  component_scores : Option ComponentScores
  candidates : List MatchCandidate
  deriving Repr, DecidableEq

/-- Main loop of `evaluate_match_batch` (`matching/llm_helper.py` lines
479-551): per ledger transaction, rank top-5 candidates against the
not-yet-claimed bank pool, call the decision capability, thread the
claimed-id set, and collect results in processing order. -/
def evalBatchLoop (ext : ExtSim) (llm : Txn → List MatchCandidate → LLMOutcome)
    (e : MatchingEngine) (bank_transactions : List Txn) :
    List Txn → Finset String → List BatchResult
  | [], _ => []
  | lt :: rest, matched =>
    let candidates := find_candidates ext e lt bank_transactions matched 5
    match candidates with
    | [] =>
      { ledger_txn := lt, bank_txn := none, llm_explanation := "No candidates found by heuristics"
        confidence := 0, heuristic_score := 0, component_scores := none
        candidates := [] } :: evalBatchLoop ext llm e bank_transactions rest matched
    | c0 :: _ =>
      let r := select_best_match (llm lt candidates) candidates
      match r.1 with
      | some i =>
        let selected := candidates.getD i dummyCandidate
        { ledger_txn := lt, bank_txn := some selected.bank_txn
          llm_explanation := r.2.1, confidence := r.2.2
          heuristic_score := selected.score
          component_scores := some selected.component_scores
          candidates := candidates }
          :: evalBatchLoop ext llm e bank_transactions rest (insert selected.bank_txn.id matched)
      | none =>
        { ledger_txn := lt, bank_txn := none
          llm_explanation := r.2.1, confidence := r.2.2
          heuristic_score := c0.score, component_scores := none
          candidates := candidates }
          :: evalBatchLoop ext llm e bank_transactions rest matched

/-- `evaluate_match_batch`: the loop above followed by the final
`results.sort(key=lambda r: r['confidence'], reverse=True)`. -/
def evaluate_match_batch (ext : ExtSim) (llm : Txn → List MatchCandidate → LLMOutcome)
    (e : MatchingEngine) (ledger_transactions bank_transactions : List Txn) :
    List BatchResult :=
  stableSortDesc (fun r => r.confidence)
    (evalBatchLoop ext llm e bank_transactions ledger_transactions ∅)

/-- Core of the synchronous `/run` endpoint (`run_matching`,
`backend/api/routes/matching.py` lines 295-357): run
`evaluate_match_batch`, then split its output into the matched bucket
(`bank_txn` present) and the unmatched bucket, preserving the batch
output's order. -/
def run_matching_results (ext : ExtSim) (llm : Txn → List MatchCandidate → LLMOutcome)
    (e : MatchingEngine) (ledger_transactions bank_transactions : List Txn) :
    List BatchResult × List BatchResult :=
  let results := evaluate_match_batch ext llm e ledger_transactions bank_transactions
  (results.filter (fun r => r.bank_txn.isSome),
   results.filter (fun r => !r.bank_txn.isSome))

/-- Main loop of the progressive background run (`run_matching_async`,
`backend/api/routes/matching.py` lines 100-187), modelled for an
uninterrupted run (no pause/stop): skip excluded ledger transactions, rank
against the exclusion-filtered bank pool minus ids claimed during this run,
call the decision capability, and append to the matched or unmatched bucket
in processing order (the source explicitly does not sort the bucket). -/
def asyncRunLoop (ext : ExtSim) (llm : Txn → List MatchCandidate → LLMOutcome)
    (e : MatchingEngine) (excluded_ledger_ids : Finset String)
    (bank_filtered : List Txn) :
    List Txn → Finset String → List BatchResult × List BatchResult
  | [], _ => ([], [])
  | lt :: rest, matched =>
    if lt.id ∈ excluded_ledger_ids then
      asyncRunLoop ext llm e excluded_ledger_ids bank_filtered rest matched
    else
      let candidates := find_candidates ext e lt bank_filtered matched 5
      match candidates with
      | [] =>
        let res := asyncRunLoop ext llm e excluded_ledger_ids bank_filtered rest matched
        (res.1,
          { ledger_txn := lt, bank_txn := none
            llm_explanation := "No candidates found by heuristics"
            confidence := 0, heuristic_score := 0, component_scores := none
            candidates := [] } :: res.2)
      | c0 :: _ =>
        let r := select_best_match (llm lt candidates) candidates
        match r.1 with
        | some i =>
          let selected := candidates.getD i dummyCandidate
          let res := asyncRunLoop ext llm e excluded_ledger_ids bank_filtered rest
            (insert selected.bank_txn.id matched)
          ({ ledger_txn := lt, bank_txn := some selected.bank_txn
             llm_explanation := r.2.1, confidence := r.2.2
             heuristic_score := selected.score
             component_scores := some selected.component_scores
             candidates := candidates } :: res.1, res.2)
        | none =>
          let res := asyncRunLoop ext llm e excluded_ledger_ids bank_filtered rest matched
          (res.1,
            { ledger_txn := lt, bank_txn := none
              llm_explanation := r.2.1, confidence := r.2.2
              heuristic_score := c0.score, component_scores := none
              candidates := candidates } :: res.2)

/-- `run_matching_async`'s result buckets for a full uninterrupted run:
the bank pool is first filtered by the persistent bank exclusions. -/
def run_matching_async_results (ext : ExtSim)
    (llm : Txn → List MatchCandidate → LLMOutcome) (e : MatchingEngine)
    (excluded_ledger_ids excluded_bank_ids : Finset String)
    (ledger_transactions bank_transactions : List Txn) :
    List BatchResult × List BatchResult :=
  asyncRunLoop ext llm e excluded_ledger_ids
    (bank_transactions.filter (fun bt => bt.id ∉ excluded_bank_ids))
    ledger_transactions ∅

/-- A caller-visible failure: FastAPI's `HTTPException(status, detail)`. -/
inductive ApiError where
  | http (status : Nat) (detail : String)
  deriving Repr, DecidableEq

/-- One entry of the review collections (`match_results`,
`confirmed_matches`, `rejected_matches`, ...).  The review-state control
flow only ever reads the two transaction ids (`...['ledger_txn']['id']`,
`...['bank_txn']['id']`, with `bank_txn` possibly `None`); the remaining
payload fields are carried around untouched and are omitted here. -/
structure RMatch where
  ledger_id : String
  bank_id : Option String
  deriving Repr, DecidableEq

/-- An audit-trail entry (the fields the claims are about; the snapshot
payload of vendors/amounts/scores is carried verbatim from the acted-on
entry and is omitted like in `RMatch`). -/
structure AuditEntry where
  action : String
  ledger_id : String
  bank_id : Option String
  notes : String
  deriving Repr, DecidableEq

/-- The module-level `match_state` dict of
`backend/api/routes/matching.py` (lines 24-45). -/
structure MatchState where
  normalized_ledger : List Txn
  normalized_bank : List Txn
  match_results : List RMatch
  unmatched_results : List RMatch
  current_index : Nat
  confirmed_matches : List RMatch
  rejected_matches : List RMatch
  flagged_duplicates : List RMatch
  skipped_matches : List RMatch
  matched_bank_ids : Finset String
  matched_ledger_ids : Finset String
  excluded_ledger_ids : Finset String
  excluded_bank_ids : Finset String
  audit_trail : List AuditEntry
  matching_in_progress : Bool
  matching_paused : Bool
  matching_progress : Nat
  matching_total : Nat
  matching_error : Option String
  deriving DecidableEq

/-- Find-and-`pop` of the first list element satisfying `p` (the
`for i, m in enumerate(...): ... pop(i); break` idiom): returns the removed
element and the remaining list. -/
def extractFirst (p : α → Bool) : List α → Option (α × List α)
  | [] => none
  | x :: xs =>
    if p x then some (x, xs)
    else
      match extractFirst p xs with
      | none => none
      | some (y, ys) => some (y, x :: ys)

/-- Python's `list.insert(i, x)`: clamps the position to the list length
(an index past the end appends). -/
def pyInsert (l : List α) (i : Nat) (x : α) : List α :=
  l.insertIdx (min i l.length) x

/-- The pairing test used by `/reject-approved`, `/restore-rejected` and
`/approve-rejected` to locate the exact `(ledger_id, bank_id)` pairing. -/
def pairMatches (ledger_id bank_id : String) (m : RMatch) : Bool :=
  m.ledger_id == ledger_id && m.bank_id == some bank_id

/-- Fallback entry for an impossible out-of-range queue access (guarded by
the cursor bound check in the source). -/
def dummyRMatch : RMatch := { ledger_id := "", bank_id := none }

/-- `submit_match_action` (`POST /api/match/action`,
`backend/api/routes/matching.py` lines 446-550): bounds-check the cursor,
append one audit entry, dispatch on the action string (an unrecognized
action, or `match` with no bank transaction, falls through every branch and
mutates nothing further), then advance the cursor by one. -/
def submit_match_action (action : String) (notes : Option String)
    (s : MatchState) : Except ApiError (MatchState × Nat) :=
  if s.current_index ≥ s.match_results.length then
    .error (.http 400 "No more matches to review")
  else
    let result := s.match_results.getD s.current_index dummyRMatch
    let entry : AuditEntry :=
      { action := action, ledger_id := result.ledger_id
        bank_id := result.bank_id, notes := notes.getD "" }
    let s1 := { s with audit_trail := s.audit_trail ++ [entry] }
    let s2 :=
      if action = "match" ∧ result.bank_id.isSome then
        { s1 with
          confirmed_matches := s1.confirmed_matches ++ [result]
          matched_bank_ids := insert (result.bank_id.getD "") s1.matched_bank_ids
          matched_ledger_ids := insert result.ledger_id s1.matched_ledger_ids }
      else if action = "reject" then
        { s1 with rejected_matches := s1.rejected_matches ++ [result] }
      else if action = "exclude_ledger" ∨ action = "exclude_bank" ∨ action = "exclude_both" then
        let exclude_ledger := action = "exclude_ledger" ∨ action = "exclude_both"
        let exclude_bank := action = "exclude_bank" ∨ action = "exclude_both"
        let sa :=
          if exclude_ledger then
            { s1 with excluded_ledger_ids := insert result.ledger_id s1.excluded_ledger_ids }
          else s1
        let sb :=
          if exclude_bank ∧ result.bank_id.isSome then
            { sa with excluded_bank_ids := insert (result.bank_id.getD "") sa.excluded_bank_ids }
          else sa
        { sb with flagged_duplicates := sb.flagged_duplicates ++ [result] }
      else if action = "skip" then
        { s1 with skipped_matches := s1.skipped_matches ++ [result] }
      else s1
    .ok ({ s2 with current_index := s.current_index + 1 }, s.current_index + 1)

/-- `reject_approved_match` (`POST /api/match/reject-approved`, lines
553-618): falsy-check the ids, find-and-remove the exact pairing from
`confirmed_matches` (404 if absent, nothing mutated), append it to
`rejected_matches`, discard both ids from the claimed sets, and append one
audit entry with action `reject`. -/
def reject_approved_match (ledger_id bank_id : String) (s : MatchState) :
    Except ApiError MatchState :=
  if ledger_id = "" ∨ bank_id = "" then
    .error (.http 400 "ledger_id and bank_id are required")
  else
    match extractFirst (pairMatches ledger_id bank_id) s.confirmed_matches with
    | none => .error (.http 404 "Approved match not found")
    | some (m, confirmed') =>
      let entry : AuditEntry :=
        { action := "reject", ledger_id := m.ledger_id, bank_id := m.bank_id
          notes := "Rejected from approved matches" }
      .ok { s with
        confirmed_matches := confirmed'
        rejected_matches := s.rejected_matches ++ [m]
        matched_bank_ids := s.matched_bank_ids.erase bank_id
        matched_ledger_ids := s.matched_ledger_ids.erase ledger_id
        audit_trail := s.audit_trail ++ [entry] }

/-- `restore_rejected_match` (`POST /api/match/restore-rejected`, lines
709-781): conflict (400) if either id is currently claimed, find-and-remove
the exact pairing from `rejected_matches` (404 if absent), reinsert it into
the pending queue at the current cursor index, append one audit entry. -/
def restore_rejected_match (ledger_id bank_id : String) (s : MatchState) :
    Except ApiError MatchState :=
  if ledger_id = "" ∨ bank_id = "" then
    .error (.http 400 "ledger_id and bank_id are required")
  else if ledger_id ∈ s.matched_ledger_ids then
    .error (.http 400 "Ledger transaction is already matched to another bank transaction")
  else if bank_id ∈ s.matched_bank_ids then
    .error (.http 400 "Bank transaction is already matched to another ledger transaction")
  else
    match extractFirst (pairMatches ledger_id bank_id) s.rejected_matches with
    | none => .error (.http 404 "Rejected match not found")
    | some (m, rejected') =>
      let entry : AuditEntry :=
        { action := "restore_to_pending", ledger_id := m.ledger_id
          bank_id := m.bank_id, notes := "Restored from rejected to pending review" }
      .ok { s with
        rejected_matches := rejected'
        match_results := pyInsert s.match_results s.current_index m
        audit_trail := s.audit_trail ++ [entry] }

/-- `approve_rejected_match` (`POST /api/match/approve-rejected`, lines
784-856): conflict (400) if either id is currently claimed, find-and-remove
the exact pairing from `rejected_matches` (404 if absent), append it to
`confirmed_matches`, claim both ids, append one audit entry. -/
def approve_rejected_match (ledger_id bank_id : String) (s : MatchState) :
    Except ApiError MatchState :=
  if ledger_id = "" ∨ bank_id = "" then
    .error (.http 400 "ledger_id and bank_id are required")
  else if ledger_id ∈ s.matched_ledger_ids then
    .error (.http 400 "Ledger transaction is already matched to another bank transaction")
  else if bank_id ∈ s.matched_bank_ids then
    .error (.http 400 "Bank transaction is already matched to another ledger transaction")
  else
    match extractFirst (pairMatches ledger_id bank_id) s.rejected_matches with
    | none => .error (.http 404 "Rejected match not found")
    | some (m, rejected') =>
      let entry : AuditEntry :=
        { action := "approve_rejected", ledger_id := m.ledger_id
          bank_id := m.bank_id, notes := "Approved directly from rejected matches" }
      .ok { s with
        rejected_matches := rejected'
        confirmed_matches := s.confirmed_matches ++ [m]
        matched_ledger_ids := insert ledger_id s.matched_ledger_ids
        matched_bank_ids := insert bank_id s.matched_bank_ids
        audit_trail := s.audit_trail ++ [entry] }

/-- `set_transactions` (`POST /api/match/set-transactions`, lines 621-648):
replace the pools and reset all per-run state, preserving only the
persistent exclusion sets. -/
def set_transactions (ledger bank : List Txn) (s : MatchState) : MatchState :=
  { s with
    normalized_ledger := ledger
    normalized_bank := bank
    match_results := []
    unmatched_results := []
    current_index := 0
    confirmed_matches := []
    rejected_matches := []
    flagged_duplicates := []
    skipped_matches := []
    matched_bank_ids := ∅
    matched_ledger_ids := ∅
    audit_trail := [] }

/-- Response of `POST /api/match/run-async`. -/
inductive StartResponse where
  | already_running (progress total : Nat)
  | started (total : Nat)
  deriving Repr, DecidableEq

/-- Synchronous part of `run_matching_async_endpoint`
(`POST /api/match/run-async`, lines 203-247): reject when no transactions
are loaded; when a run is in progress, either report "paused, use /resume"
as an HTTP 400 error or return `already_running` with the current progress
and mutate nothing; otherwise initialize the run state (the background
thread itself is modelled separately by `run_matching_async_results`). -/
def run_matching_async_endpoint (s : MatchState) :
    Except ApiError (StartResponse × MatchState) :=
  if s.normalized_ledger = [] ∨ s.normalized_bank = [] then
    .error (.http 400 "No transactions loaded. Please import files first.")
  else if s.matching_in_progress then
    if s.matching_paused then
      .error (.http 400 "Matching is paused. Use /resume to continue.")
    else
      .ok (.already_running s.matching_progress s.matching_total, s)
  else
    let non_excluded :=
      (s.normalized_ledger.filter (fun t => t.id ∉ s.excluded_ledger_ids)).length
    .ok (.started s.normalized_ledger.length,
      { s with
        matching_in_progress := true
        matching_paused := false
        matching_progress := 0
        matching_total := non_excluded
        matching_error := none
        match_results := []
        unmatched_results := []
        current_index := 0 })

/-- The operations quantified over by the claim about claim-set
exclusivity: `act` with action `match`, and the three pairing-level
transition endpoints. -/
inductive ReviewOp where
  | actMatch (notes : Option String)
  | rejectApproved (ledger_id bank_id : String)
  | restoreRejected (ledger_id bank_id : String)
  | approveRejected (ledger_id bank_id : String)

/-- Apply one review operation; a failing endpoint mutates nothing (every
`raise` in the source happens before the first mutation). -/
def applyReviewOp (op : ReviewOp) (s : MatchState) : MatchState :=
  match op with
  | .actMatch notes =>
    match submit_match_action "match" notes s with
    | .ok (s', _) => s'
    | .error _ => s
  | .rejectApproved l b =>
    match reject_approved_match l b s with
    | .ok s' => s'
    | .error _ => s
  | .restoreRejected l b =>
    match restore_rejected_match l b s with
    | .ok s' => s'
    | .error _ => s
  | .approveRejected l b =>
    match approve_rejected_match l b s with
    | .ok s' => s'
    | .error _ => s

/-- Apply a sequence of review operations in order. -/
def runReviewOps : List ReviewOp → MatchState → MatchState
  | [], s => s
  | op :: ops, s => runReviewOps ops (applyReviewOp op s)

/-- The all-empty state the module starts from. -/
def emptyMatchState : MatchState :=
  { normalized_ledger := [], normalized_bank := [], match_results := []
    unmatched_results := [], current_index := 0, confirmed_matches := []
    rejected_matches := [], flagged_duplicates := [], skipped_matches := []
    matched_bank_ids := ∅, matched_ledger_ids := ∅, excluded_ledger_ids := ∅
    excluded_bank_ids := ∅, audit_trail := [], matching_in_progress := false
    matching_paused := false, matching_progress := 0, matching_total := 0
    matching_error := none }

/-- A freshly reset review session whose pending queue holds the matched
bucket `qs` of a matching run. -/
def freshReviewState (ledger bank : List Txn) (qs : List RMatch) : MatchState :=
  { set_transactions ledger bank emptyMatchState with match_results := qs }

/-- Well-formedness of a pending queue as produced by a matching run: the
per-run claimed-id bookkeeping guarantees pairwise-distinct ledger ids and
pairwise-distinct bank ids across the matched bucket. -/
def WFQueue (qs : List RMatch) : Prop :=
  (qs.map (fun m => m.ledger_id)).Nodup ∧ (qs.filterMap (fun m => m.bank_id)).Nodup

/-- Concrete external-similarity instantiation for counterexamples with
fully dissimilar vendor strings: `rapidfuzz` returns similarity 0 for
strings over disjoint character sets (`"aaa"` vs `"zzz"`) and 1 for
identical strings; `exp_neg` is irrelevant for the inputs used (all amount
differences are 0). -/
def extNoSim : ExtSim :=
  { token_set_ratio := fun _ _ => 0, fuzz_ratio := fun _ _ => 0
    exp_neg := fun _ => 0 }

/-- Concrete external-similarity instantiation where only identical strings
are compared: `rapidfuzz` returns similarity 1 for identical strings. -/
def extSelfSim : ExtSim :=
  { token_set_ratio := fun a b => if a = b then 1 else 0
    fuzz_ratio := fun a b => if a = b then 1 else 0
    exp_neg := fun _ => 0 }

/-- The default engine configuration (`vendor_threshold=0.80`,
`amount_tolerance=0.01`, `date_window=3`, `require_reference=False`). -/
def engDefault : MatchingEngine := MatchingEngine.init (4/5) (1/100) 3 false

/-- Ledger transaction used in concrete scenarios. -/
def txnL1 : Txn :=
  { id := "L1", date := 0, vendor := "acme", description := "", amount := 10
    txn_type := "money_out", reference := none }

/-- Second ledger transaction with the same attributes as `txnL1`. -/
def txnL2 : Txn :=
  { id := "L2", date := 0, vendor := "acme", description := "", amount := 10
    txn_type := "money_out", reference := none }

/-- Bank transaction matching both `txnL1` and `txnL2` exactly. -/
def txnB1 : Txn :=
  { id := "B1", date := 0, vendor := "acme", description := "", amount := 10
    txn_type := "money_out", reference := none }

/-- Ledger side of the C1 counterexample: `money_in`, vendor `"aaa"`. -/
def txnC1L : Txn :=
  { id := "L1", date := 100, vendor := "aaa", description := "", amount := 50
    txn_type := "money_in", reference := none }

/-- Bank side of the C1 counterexample: `money_out`, vendor `"zzz"` (fully
dissimilar from `"aaa"`). -/
def txnC1B : Txn :=
  { id := "B1", date := 100, vendor := "zzz", description := "", amount := 50
    txn_type := "money_out", reference := none }

/-- Veto-path score of `compute_match_score`: a transaction-type mismatch
sets the running total to 0.1, and the vendor-threshold penalty is applied
afterwards. -/
lemma score_of_type_mismatch (ext : ExtSim) (e : MatchingEngine) (l b : Txn)
    (h : normType l.txn_type ≠ normType b.txn_type) :
    (compute_match_score ext e l b).score =
      if compute_vendor_score ext l.vendor b.vendor < e.vendor_threshold
      then 1/20 else 1/10 := by
  unfold compute_match_score compute_txn_type_score
  simp only [if_neg h]
  split <;> norm_num

/-- The fully dissimilar vendors of the C1 counterexample score 0, which is
below the default vendor threshold of 0.8. -/
lemma c1cex_vendor_below :
    compute_vendor_score extNoSim txnC1L.vendor txnC1B.vendor
      < engDefault.vendor_threshold := by
  norm_num [compute_vendor_score, extNoSim, engDefault, MatchingEngine.init]

/-- C1 (amended): when the (defaulted) transaction types differ, the
composite score is 0.1 only if the vendor score clears the vendor
threshold; the vendor-threshold penalty of `compute_match_score` is applied
after the hard veto, so a vetoed pair with a vendor score below the
threshold gets composite 0.05, not 0.1. -/
theorem c1_type_mismatch_veto (ext : ExtSim) (e : MatchingEngine) (l b : Txn)
    (h : normType l.txn_type ≠ normType b.txn_type) :
    (compute_match_score ext e l b).score =
      if compute_vendor_score ext l.vendor b.vendor < e.vendor_threshold
      then 1/20 else 1/10 :=
  score_of_type_mismatch ext e l b h

/-- C1 witness: a concrete vetoed pair whose vendor score is below the
threshold evaluates to composite 1/20. -/
theorem c1_type_mismatch_veto_witness :
    (compute_match_score extNoSim engDefault txnC1L txnC1B).score = 1/20 := by
  have h := c1_type_mismatch_veto extNoSim engDefault txnC1L txnC1B (by decide)
  rw [h, if_pos c1cex_vendor_below]

/-- C1 counterexample: the transaction types of `txnC1L`/`txnC1B` differ,
yet the composite score is 1/20 rather than the claimed 0.1, because the
vendors are fully dissimilar and the vendor-threshold penalty halves the
vetoed score. -/
theorem c1_counterexample :
    txnC1L.txn_type ≠ txnC1B.txn_type ∧
    (compute_match_score extNoSim engDefault txnC1L txnC1B).score ≠ 1/10 ∧
    (compute_match_score extNoSim engDefault txnC1L txnC1B).score = 1/20 := by
  have h : (compute_match_score extNoSim engDefault txnC1L txnC1B).score = 1/20 := by
    rw [score_of_type_mismatch extNoSim engDefault txnC1L txnC1B (by decide),
      if_pos c1cex_vendor_below]
  exact ⟨by decide, by rw [h]; norm_num, h⟩

/-- C4 (amended): constructing `MatchingEngine` or `MatchingConfig`
performs no validation at all — every input, including invalid thresholds,
is accepted and stored verbatim (no rejection, no clamping), and
`get_config` returns the stored values unchanged. -/
theorem c4_no_validation (vt tol : ℚ) (dw : Int) (rr : Bool) :
    MatchingEngine.init vt tol dw rr =
      { vendor_threshold := vt, amount_tolerance := tol, date_window := dw
        require_reference := rr } ∧
    (MatchingEngine.init vt tol dw rr).get_config = (vt, tol, dw, rr) ∧
    MatchingConfig.mk' vt tol dw rr =
      { vendor_threshold := vt, amount_tolerance := tol, date_window := dw
        require_reference := rr } :=
  ⟨rfl, rfl, rfl⟩

/-- C4 counterexample: construction with a vendor threshold of 2 (outside
[0,1]) and a negative amount tolerance succeeds and stores the invalid
values unchanged — nothing is rejected at construction time. -/
theorem c4_counterexample :
    MatchingEngine.init 2 (-1) (-5) false =
      { vendor_threshold := 2, amount_tolerance := -1, date_window := -5
        require_reference := false } ∧
    MatchingConfig.mk' 2 (-1) (-5) false =
      { vendor_threshold := 2, amount_tolerance := -1, date_window := -5
        require_reference := false } :=
  ⟨rfl, rfl⟩

/-- Concrete paused state for the C3 counterexample. -/
def sPausedEx : MatchState :=
  { emptyMatchState with
    normalized_ledger := [txnL1], normalized_bank := [txnB1]
    matching_in_progress := true, matching_paused := true
    matching_progress := 2, matching_total := 5 }

/-- Concrete running (not paused) state. -/
def sRunningEx : MatchState :=
  { emptyMatchState with
    normalized_ledger := [txnL1], normalized_bank := [txnB1]
    matching_in_progress := true, matching_paused := false
    matching_progress := 2, matching_total := 5 }

/-- C3 (amended): with transactions loaded and a run already active,
starting a batch while the run is Running (not paused) is not an error and
returns the current progress without mutating any state; but starting while
the run is Paused fails with an HTTP 400 error directing the caller to
`/resume` (also without mutating state).  In neither case is a second run
started. -/
theorem c3_already_active (s : MatchState)
    (hl : s.normalized_ledger ≠ []) (hb : s.normalized_bank ≠ [])
    (hrun : s.matching_in_progress = true) :
    (s.matching_paused = false →
      run_matching_async_endpoint s =
        .ok (.already_running s.matching_progress s.matching_total, s)) ∧
    (s.matching_paused = true →
      run_matching_async_endpoint s =
        .error (.http 400 "Matching is paused. Use /resume to continue.")) := by
  unfold run_matching_async_endpoint
  constructor
  · intro hp
    rw [if_neg (by simp [hl, hb]), if_pos hrun, if_neg (by simp [hp])]
  · intro hp
    rw [if_neg (by simp [hl, hb]), if_pos hrun, if_pos hp]

/-- C3 witness: on the concrete running state, starting again returns
`already_running` with the current progress and the unchanged state. -/
theorem c3_already_active_witness :
    run_matching_async_endpoint sRunningEx =
      .ok (.already_running 2 5, sRunningEx) := by
  have h := c3_already_active sRunningEx (by decide) (by decide) rfl
  exact h.1 rfl

/-- C3 counterexample: on the concrete paused state — a state in which a
batch run is active — invoking the start-matching operation IS an error
(HTTP 400), contradicting the claim that it returns the current progress. -/
theorem c3_counterexample :
    sPausedEx.matching_in_progress = true ∧ sPausedEx.matching_paused = true ∧
    run_matching_async_endpoint sPausedEx =
      .error (.http 400 "Matching is paused. Use /resume to continue.") := by
  refine ⟨rfl, rfl, ?_⟩
  have h1 : sPausedEx.matching_in_progress = true := rfl
  have h2 : sPausedEx.matching_paused = true := rfl
  rw [run_matching_async_endpoint]
  rw [if_neg (by decide), if_pos h1, if_pos h2]

/-- C10: `find_all_candidates` passes no claimed-id set to the ranker
(the `matched_bank_ids` argument is left at its empty default), so on a
concrete input with two ledger transactions identical to the single bank
transaction, the same bank transaction `B1` is returned as the best
candidate of both ledger transactions within one call. -/
theorem c10_same_bank_twice :
    (find_all_candidates extSelfSim engDefault [txnL1, txnL2] [txnB1]
        (3/10)).map (fun c => (c.ledger_txn.id, c.bank_txn.id)) =
      [("L1", "B1"), ("L2", "B1")] := by
  norm_num [find_all_candidates, find_candidates, compute_match_score,
    compute_amount_score, compute_date_score, compute_vendor_score,
    compute_reference_score, compute_txn_type_score, normType, hasRef,
    stableSortDesc, insertByDesc, extSelfSim, engDefault, MatchingEngine.init,
    txnL1, txnL2, txnB1, List.filterMap, List.filter]

/-- A successful `extractFirst` returns an element satisfying the
predicate, and the remainder is the original list with exactly that one
occurrence removed. -/
lemma extractFirst_some_spec (p : α → Bool) :
    ∀ (l : List α) (a : α) (l' : List α),
      extractFirst p l = some (a, l') →
      p a = true ∧ ∃ l₁ l₂, l = l₁ ++ a :: l₂ ∧ l' = l₁ ++ l₂ := by
  intro l
  induction l with
  | nil => intro a l' h; simp [extractFirst] at h
  | cons x xs ih =>
    intro a l' h
    rw [extractFirst] at h
    by_cases hp : p x
    · rw [if_pos hp] at h
      obtain ⟨rfl, rfl⟩ : x = a ∧ xs = l' := by
        simpa using h
      exact ⟨hp, [], xs, rfl, rfl⟩
    · rw [if_neg hp] at h
      cases hx : extractFirst p xs with
      | none => rw [hx] at h; simp at h
      | some v =>
        obtain ⟨y, ys⟩ := v
        rw [hx] at h
        have h' : y = a ∧ x :: ys = l' := by simpa using h
        obtain ⟨h1, h2⟩ := h'
        obtain ⟨hp', l₁, l₂, hl, hl'⟩ := ih y ys hx
        subst h1
        subst h2
        exact ⟨hp', x :: l₁, l₂, by rw [List.cons_append, ← hl],
          by rw [List.cons_append, ← hl']⟩

/-- `extractFirst` fails exactly when no element satisfies the predicate. -/
lemma extractFirst_eq_none (p : α → Bool) :
    ∀ l : List α, extractFirst p l = none ↔ ∀ a ∈ l, ¬p a = true := by
  intro l
  induction l with
  | nil => simp [extractFirst]
  | cons x xs ih =>
    rw [extractFirst]
    by_cases hp : p x
    · simp [hp]
    · rw [if_neg hp]
      cases hx : extractFirst p xs with
      | none =>
        constructor
        · intro _ a ha
          rcases List.mem_cons.mp ha with rfl | ha'
          · exact hp
          · exact (ih.mp hx) a ha'
        · intro _
          rfl
      | some v =>
        obtain ⟨y, ys⟩ := v
        constructor
        · intro h
          exact absurd h (by simp)
        · intro h
          have h0 : extractFirst p xs = none :=
            ih.mpr (fun a ha => h a (List.mem_cons.mpr (Or.inr ha)))
          rw [h0] at hx
          cases hx

/-- When some element satisfies the predicate, `extractFirst` succeeds. -/
lemma extractFirst_isSome (p : α → Bool) (l : List α)
    (h : ∃ a ∈ l, p a = true) : ∃ a l', extractFirst p l = some (a, l') := by
  cases hx : extractFirst p l with
  | none =>
    obtain ⟨a, ha, hpa⟩ := h
    exact absurd hpa ((extractFirst_eq_none p l).mp hx a ha)
  | some v =>
    obtain ⟨a, l'⟩ := v
    exact ⟨a, l', rfl⟩

/-- `pairMatches` holds exactly for entries carrying the exact pairing. -/
lemma pairMatches_iff (l b : String) (m : RMatch) :
    pairMatches l b m = true ↔ m.ledger_id = l ∧ m.bank_id = some b := by
  simp [pairMatches]

/-- Dropping at the insertion point exposes the inserted element: Python's
`list.insert(i, x)` at a position `i ≤ len` makes `x` the element at
index `i`. -/
lemma drop_insertIdx_self (x : α) :
    ∀ (i : Nat) (l : List α), i ≤ l.length →
      (List.insertIdx i x l).drop i = x :: l.drop i := by
  intro i
  induction i with
  | zero =>
    intro l _
    rw [List.insertIdx_zero, List.drop_zero, List.drop_zero]
  | succ n ih =>
    intro l hl
    cases l with
    | nil => simp at hl
    | cons a as =>
      rw [List.insertIdx_succ_cons, List.drop_succ_cons, List.drop_succ_cons]
      exact ih as (Nat.le_of_succ_le_succ hl)

lemma drop_pyInsert (x : α) (i : Nat) (l : List α) (h : i ≤ l.length) :
    (pyInsert l i x).drop i = x :: l.drop i := by
  rw [pyInsert, min_eq_left h]
  exact drop_insertIdx_self x i l h

/-- `submit_match_action` with the cursor at or past the queue end fails
with HTTP 400 (and, being an error, mutates nothing). -/
lemma submit_action_past_end (action : String) (notes : Option String)
    (s : MatchState) (h : s.current_index ≥ s.match_results.length) :
    submit_match_action action notes s =
      .error (.http 400 "No more matches to review") := by
  simp only [submit_match_action, if_pos h]

/-- Equation for a successful `match` action on an entry with a bank
transaction: append to `confirmed_matches`, claim both ids, append one
audit entry, advance the cursor. -/
lemma submit_match_some_eq (notes : Option String) (s : MatchState)
    (r : RMatch) (bid : String)
    (hcur : s.current_index < s.match_results.length)
    (hr : s.match_results.getD s.current_index dummyRMatch = r)
    (hbid : r.bank_id = some bid) :
    submit_match_action "match" notes s =
      .ok ({ s with
        confirmed_matches := s.confirmed_matches ++ [r]
        matched_bank_ids := insert bid s.matched_bank_ids
        matched_ledger_ids := insert r.ledger_id s.matched_ledger_ids
        audit_trail := s.audit_trail ++
          [{ action := "match", ledger_id := r.ledger_id, bank_id := r.bank_id
             notes := notes.getD "" }]
        current_index := s.current_index + 1 }, s.current_index + 1) := by
  simp only [submit_match_action]
  rw [if_neg (not_le.mpr hcur), hr, hbid]
  simp

/-- Equation for the fall-through case of `submit_match_action`: an action
outside the recognized set, or `match` on an entry with no bank
transaction, appends the audit entry and advances the cursor but touches
no destination collection and no id set. -/
lemma submit_fallthrough_eq (action : String) (notes : Option String)
    (s : MatchState)
    (hcur : s.current_index < s.match_results.length)
    (hact : action ∉ ["match", "reject", "exclude_ledger", "exclude_bank",
        "exclude_both", "skip"] ∨
      (action = "match" ∧
        (s.match_results.getD s.current_index dummyRMatch).bank_id = none)) :
    submit_match_action action notes s =
      .ok ({ s with
        audit_trail := s.audit_trail ++
          [{ action := action
             ledger_id := (s.match_results.getD s.current_index dummyRMatch).ledger_id
             bank_id := (s.match_results.getD s.current_index dummyRMatch).bank_id
             notes := notes.getD "" }]
        current_index := s.current_index + 1 }, s.current_index + 1) := by
  simp only [submit_match_action]
  rw [if_neg (not_le.mpr hcur)]
  rcases hact with h | ⟨rfl, hb⟩
  · simp only [List.mem_cons, List.not_mem_nil, or_false, not_or] at h
    obtain ⟨h1, h2, h3, h4, h5, h6⟩ := h
    simp [h1, h2, h3, h4, h5, h6]
  · rw [hb]
    simp

/-- Equation for a successful `/reject-approved`. -/
lemma reject_approved_found_eq (ledger_id bank_id : String) (s : MatchState)
    (m : RMatch) (confirmed' : List RMatch)
    (hl : ledger_id ≠ "") (hb : bank_id ≠ "")
    (hx : extractFirst (pairMatches ledger_id bank_id) s.confirmed_matches =
      some (m, confirmed')) :
    reject_approved_match ledger_id bank_id s =
      .ok { s with
        confirmed_matches := confirmed'
        rejected_matches := s.rejected_matches ++ [m]
        matched_bank_ids := s.matched_bank_ids.erase bank_id
        matched_ledger_ids := s.matched_ledger_ids.erase ledger_id
        audit_trail := s.audit_trail ++
          [{ action := "reject", ledger_id := m.ledger_id, bank_id := m.bank_id
             notes := "Rejected from approved matches" }] } := by
  simp only [reject_approved_match, if_neg (not_or.mpr ⟨hl, hb⟩), hx]

/-- Equation for `/reject-approved` when the exact pairing is absent. -/
lemma reject_approved_not_found_eq (ledger_id bank_id : String)
    (s : MatchState) (hl : ledger_id ≠ "") (hb : bank_id ≠ "")
    (hx : extractFirst (pairMatches ledger_id bank_id) s.confirmed_matches =
      none) :
    reject_approved_match ledger_id bank_id s =
      .error (.http 404 "Approved match not found") := by
  simp only [reject_approved_match, if_neg (not_or.mpr ⟨hl, hb⟩), hx]

/-- Equation for a successful `/restore-rejected`. -/
lemma restore_rejected_found_eq (ledger_id bank_id : String) (s : MatchState)
    (m : RMatch) (rejected' : List RMatch)
    (hl : ledger_id ≠ "") (hb : bank_id ≠ "")
    (hcl : ledger_id ∉ s.matched_ledger_ids)
    (hcb : bank_id ∉ s.matched_bank_ids)
    (hx : extractFirst (pairMatches ledger_id bank_id) s.rejected_matches =
      some (m, rejected')) :
    restore_rejected_match ledger_id bank_id s =
      .ok { s with
        rejected_matches := rejected'
        match_results := pyInsert s.match_results s.current_index m
        audit_trail := s.audit_trail ++
          [{ action := "restore_to_pending", ledger_id := m.ledger_id
             bank_id := m.bank_id
             notes := "Restored from rejected to pending review" }] } := by
  simp only [restore_rejected_match, if_neg (not_or.mpr ⟨hl, hb⟩),
    if_neg hcl, if_neg hcb, hx]

/-- Equation for a successful `/approve-rejected`. -/
lemma approve_rejected_found_eq (ledger_id bank_id : String) (s : MatchState)
    (m : RMatch) (rejected' : List RMatch)
    (hl : ledger_id ≠ "") (hb : bank_id ≠ "")
    (hcl : ledger_id ∉ s.matched_ledger_ids)
    (hcb : bank_id ∉ s.matched_bank_ids)
    (hx : extractFirst (pairMatches ledger_id bank_id) s.rejected_matches =
      some (m, rejected')) :
    approve_rejected_match ledger_id bank_id s =
      .ok { s with
        rejected_matches := rejected'
        confirmed_matches := s.confirmed_matches ++ [m]
        matched_ledger_ids := insert ledger_id s.matched_ledger_ids
        matched_bank_ids := insert bank_id s.matched_bank_ids
        audit_trail := s.audit_trail ++
          [{ action := "approve_rejected", ledger_id := m.ledger_id
             bank_id := m.bank_id
             notes := "Approved directly from rejected matches" }] } := by
  simp only [approve_rejected_match, if_neg (not_or.mpr ⟨hl, hb⟩),
    if_neg hcl, if_neg hcb, hx]

/-- `/restore-rejected` and `/approve-rejected` fail with 404 when the
exact pairing is absent and neither id is claimed. -/
lemma restore_approve_not_found_eq (ledger_id bank_id : String)
    (s : MatchState) (hl : ledger_id ≠ "") (hb : bank_id ≠ "")
    (hcl : ledger_id ∉ s.matched_ledger_ids)
    (hcb : bank_id ∉ s.matched_bank_ids)
    (hx : extractFirst (pairMatches ledger_id bank_id) s.rejected_matches =
      none) :
    restore_rejected_match ledger_id bank_id s =
      .error (.http 404 "Rejected match not found") ∧
    approve_rejected_match ledger_id bank_id s =
      .error (.http 404 "Rejected match not found") := by
  constructor
  · simp only [restore_rejected_match, if_neg (not_or.mpr ⟨hl, hb⟩),
      if_neg hcl, if_neg hcb, hx]
  · simp only [approve_rejected_match, if_neg (not_or.mpr ⟨hl, hb⟩),
      if_neg hcl, if_neg hcb, hx]

/-- `/restore-rejected` and `/approve-rejected` fail with an HTTP 400
conflict when either id is currently claimed. -/
lemma restore_approve_conflict_eq (ledger_id bank_id : String)
    (s : MatchState) (hl : ledger_id ≠ "") (hb : bank_id ≠ "")
    (hc : ledger_id ∈ s.matched_ledger_ids ∨ bank_id ∈ s.matched_bank_ids) :
    ∃ d, restore_rejected_match ledger_id bank_id s = .error (.http 400 d) ∧
      approve_rejected_match ledger_id bank_id s = .error (.http 400 d) ∧
      (d = "Ledger transaction is already matched to another bank transaction" ∨
       d = "Bank transaction is already matched to another ledger transaction") := by
  by_cases hcl : ledger_id ∈ s.matched_ledger_ids
  · refine ⟨_, ?_, ?_, Or.inl rfl⟩
    · simp only [restore_rejected_match, if_neg (not_or.mpr ⟨hl, hb⟩), if_pos hcl]
    · simp only [approve_rejected_match, if_neg (not_or.mpr ⟨hl, hb⟩), if_pos hcl]
  · have hcb : bank_id ∈ s.matched_bank_ids := hc.resolve_left hcl
    refine ⟨_, ?_, ?_, Or.inr rfl⟩
    · simp only [restore_rejected_match, if_neg (not_or.mpr ⟨hl, hb⟩),
        if_neg hcl, if_pos hcb]
    · simp only [approve_rejected_match, if_neg (not_or.mpr ⟨hl, hb⟩),
        if_neg hcl, if_pos hcb]

/-- C9: with the cursor inside the queue, `submit_match_action` with an
action string outside the defined set — or with `match` on a pending entry
whose bank transaction is null — still succeeds: it appends exactly one
audit entry, advances the cursor by one, and leaves every destination
collection and every claimed/excluded id set unchanged. -/
theorem c9_fallthrough_succeeds (action : String) (notes : Option String)
    (s : MatchState)
    (hcur : s.current_index < s.match_results.length)
    (hact : action ∉ ["match", "reject", "exclude_ledger", "exclude_bank",
        "exclude_both", "skip"] ∨
      (action = "match" ∧
        (s.match_results.getD s.current_index dummyRMatch).bank_id = none)) :
    ∃ sn, submit_match_action action notes s = .ok (sn, s.current_index + 1) ∧
      sn.audit_trail = s.audit_trail ++
        [{ action := action
           ledger_id := (s.match_results.getD s.current_index dummyRMatch).ledger_id
           bank_id := (s.match_results.getD s.current_index dummyRMatch).bank_id
           notes := notes.getD "" }] ∧
      sn.current_index = s.current_index + 1 ∧
      sn.confirmed_matches = s.confirmed_matches ∧
      sn.rejected_matches = s.rejected_matches ∧
      sn.flagged_duplicates = s.flagged_duplicates ∧
      sn.skipped_matches = s.skipped_matches ∧
      sn.matched_ledger_ids = s.matched_ledger_ids ∧
      sn.matched_bank_ids = s.matched_bank_ids ∧
      sn.excluded_ledger_ids = s.excluded_ledger_ids ∧
      sn.excluded_bank_ids = s.excluded_bank_ids ∧
      sn.match_results = s.match_results :=
  ⟨_, submit_fallthrough_eq action notes s hcur hact, rfl, rfl, rfl, rfl, rfl,
    rfl, rfl, rfl, rfl, rfl, rfl⟩

/-- Concrete one-entry review state used by the C9 witness. -/
def sC9Ex : MatchState :=
  { emptyMatchState with
    match_results := [{ ledger_id := "L1", bank_id := some "B1" }] }

/-- C9 witness: the unrecognized action `"flag"` on the concrete one-entry
state succeeds, logs one audit entry, and changes nothing else. -/
theorem c9_fallthrough_succeeds_witness :
    ∃ sn, submit_match_action "flag" none sC9Ex = .ok (sn, 1) ∧
      sn.audit_trail =
        [{ action := "flag", ledger_id := "L1", bank_id := some "B1"
           notes := "" }] ∧
      sn.confirmed_matches = [] ∧ sn.matched_ledger_ids = ∅ := by
  obtain ⟨sn, heq, haud, _, hconf, _, _, _, hml, _, _, _, _⟩ :=
    c9_fallthrough_succeeds "flag" none sC9Ex (by decide) (Or.inl (by decide))
  refine ⟨sn, heq, ?_, hconf, hml⟩
  rw [haud]
  rfl

/-- C6: `reject_approved` on a state whose `confirmed_matches` contains the
exact pairing moves exactly that pairing from confirmed to rejected,
releases both ids from the claimed sets, and grows the audit trail by
exactly one entry with action `reject`, touching nothing else; when the
exact pairing is absent it fails with HTTP 404 and mutates nothing. -/
theorem c6_reject_approved (s : MatchState) (l b : String)
    (hl : l ≠ "") (hb : b ≠ "") :
    ((∃ m ∈ s.confirmed_matches, pairMatches l b m = true) →
      ∃ m sn, reject_approved_match l b s = .ok sn ∧
        m.ledger_id = l ∧ m.bank_id = some b ∧
        s.confirmed_matches.Perm (m :: sn.confirmed_matches) ∧
        sn.rejected_matches = s.rejected_matches ++ [m] ∧
        sn.matched_ledger_ids = s.matched_ledger_ids.erase l ∧
        sn.matched_bank_ids = s.matched_bank_ids.erase b ∧
        sn.audit_trail.length = s.audit_trail.length + 1 ∧
        sn.audit_trail.getLast? = some
          { action := "reject", ledger_id := m.ledger_id, bank_id := m.bank_id
            notes := "Rejected from approved matches" } ∧
        sn.match_results = s.match_results ∧
        sn.current_index = s.current_index ∧
        sn.skipped_matches = s.skipped_matches ∧
        sn.flagged_duplicates = s.flagged_duplicates ∧
        sn.excluded_ledger_ids = s.excluded_ledger_ids ∧
        sn.excluded_bank_ids = s.excluded_bank_ids) ∧
    ((¬∃ m ∈ s.confirmed_matches, pairMatches l b m = true) →
      reject_approved_match l b s =
        .error (.http 404 "Approved match not found")) := by
  constructor
  · intro hex
    obtain ⟨m, c', hx⟩ := extractFirst_isSome _ _ hex
    obtain ⟨hpm, l₁, l₂, hdec, hrem⟩ := extractFirst_some_spec _ _ _ _ hx
    obtain ⟨hml, hmb⟩ := (pairMatches_iff l b m).mp hpm
    refine ⟨m, _, reject_approved_found_eq l b s m c' hl hb hx, hml, hmb,
      ?_, rfl, rfl, rfl, ?_, ?_, rfl, rfl, rfl, rfl, rfl, rfl⟩
    · rw [hdec, hrem]
      exact List.perm_middle
    · rw [List.length_append]
      rfl
    · exact List.getLast?_concat _
  · intro hnex
    have hx : extractFirst (pairMatches l b) s.confirmed_matches = none := by
      rw [extractFirst_eq_none]
      intro a ha hpa
      exact hnex ⟨a, ha, hpa⟩
    exact reject_approved_not_found_eq l b s hl hb hx

/-- Concrete state with one confirmed pairing, used by the C6 witness. -/
def sC6Ex : MatchState :=
  { emptyMatchState with
    confirmed_matches := [{ ledger_id := "L1", bank_id := some "B1" }]
    matched_ledger_ids := {"L1"}
    matched_bank_ids := {"B1"} }

/-- C6 witness: rejecting the confirmed pairing of the concrete state
succeeds, moves it to rejected, and both failure branches evaluate as the
theorem states. -/
theorem c6_reject_approved_witness :
    ∃ sn, reject_approved_match "L1" "B1" sC6Ex = .ok sn ∧
      sn.rejected_matches = [{ ledger_id := "L1", bank_id := some "B1" }] ∧
      sn.audit_trail.length = 1 ∧
      reject_approved_match "L2" "B1" sC6Ex =
        .error (.http 404 "Approved match not found") := by
  obtain ⟨m, sn, heq, hml, hmb, _, hrej, _, _, hlen, _, _⟩ :=
    (c6_reject_approved sC6Ex "L1" "B1" (by decide) (by decide)).1
      ⟨{ ledger_id := "L1", bank_id := some "B1" }, by decide, by decide⟩
  have hm : m = { ledger_id := "L1", bank_id := some "B1" } := by
    cases m
    simp only [RMatch.mk.injEq]
    exact ⟨hml, hmb⟩
  refine ⟨sn, heq, ?_, ?_, ?_⟩
  · rw [hrej, hm]
    rfl
  · rw [hlen]
    rfl
  · exact (c6_reject_approved sC6Ex "L2" "B1" (by decide) (by decide)).2
      (by decide)

/-- C7: `restore_rejected` and `approve_rejected` both fail with an HTTP
400 conflict (mutating nothing) whenever either id is claimed; with neither
id claimed they fail with HTTP 404 (mutating nothing) when the exact
pairing is absent from `rejected_matches`; and on success restore removes
the pairing from rejected and reinserts it into the pending queue at the
current cursor index while approve moves it into confirmed and claims both
ids — each successful call appending exactly one audit entry. -/
theorem c7_restore_approve (s : MatchState) (l b : String)
    (hl : l ≠ "") (hb : b ≠ "") :
    ((l ∈ s.matched_ledger_ids ∨ b ∈ s.matched_bank_ids) →
      ∃ d, restore_rejected_match l b s = .error (.http 400 d) ∧
        approve_rejected_match l b s = .error (.http 400 d) ∧
        (d = "Ledger transaction is already matched to another bank transaction" ∨
         d = "Bank transaction is already matched to another ledger transaction")) ∧
    (l ∉ s.matched_ledger_ids → b ∉ s.matched_bank_ids →
      (¬∃ m ∈ s.rejected_matches, pairMatches l b m = true) →
      restore_rejected_match l b s =
        .error (.http 404 "Rejected match not found") ∧
      approve_rejected_match l b s =
        .error (.http 404 "Rejected match not found")) ∧
    (l ∉ s.matched_ledger_ids → b ∉ s.matched_bank_ids →
      (∃ m ∈ s.rejected_matches, pairMatches l b m = true) →
      (∃ m sn, restore_rejected_match l b s = .ok sn ∧
        m.ledger_id = l ∧ m.bank_id = some b ∧
        s.rejected_matches.Perm (m :: sn.rejected_matches) ∧
        sn.match_results = pyInsert s.match_results s.current_index m ∧
        (s.current_index ≤ s.match_results.length →
          (sn.match_results.drop s.current_index).head? = some m) ∧
        sn.current_index = s.current_index ∧
        sn.confirmed_matches = s.confirmed_matches ∧
        sn.matched_ledger_ids = s.matched_ledger_ids ∧
        sn.matched_bank_ids = s.matched_bank_ids ∧
        sn.audit_trail.length = s.audit_trail.length + 1 ∧
        sn.audit_trail.getLast? = some
          { action := "restore_to_pending", ledger_id := m.ledger_id
            bank_id := m.bank_id
            notes := "Restored from rejected to pending review" }) ∧
      (∃ m sn, approve_rejected_match l b s = .ok sn ∧
        m.ledger_id = l ∧ m.bank_id = some b ∧
        s.rejected_matches.Perm (m :: sn.rejected_matches) ∧
        sn.confirmed_matches = s.confirmed_matches ++ [m] ∧
        sn.matched_ledger_ids = insert l s.matched_ledger_ids ∧
        sn.matched_bank_ids = insert b s.matched_bank_ids ∧
        sn.match_results = s.match_results ∧
        sn.current_index = s.current_index ∧
        sn.audit_trail.length = s.audit_trail.length + 1 ∧
        sn.audit_trail.getLast? = some
          { action := "approve_rejected", ledger_id := m.ledger_id
            bank_id := m.bank_id
            notes := "Approved directly from rejected matches" })) := by
  refine ⟨?_, ?_, ?_⟩
  · intro hc
    exact restore_approve_conflict_eq l b s hl hb hc
  · intro hcl hcb hnex
    have hx : extractFirst (pairMatches l b) s.rejected_matches = none := by
      rw [extractFirst_eq_none]
      intro a ha hpa
      exact hnex ⟨a, ha, hpa⟩
    exact restore_approve_not_found_eq l b s hl hb hcl hcb hx
  · intro hcl hcb hex
    obtain ⟨m, r', hx⟩ := extractFirst_isSome _ _ hex
    obtain ⟨hpm, l₁, l₂, hdec, hrem⟩ := extractFirst_some_spec _ _ _ _ hx
    obtain ⟨hml, hmb⟩ := (pairMatches_iff l b m).mp hpm
    constructor
    · refine ⟨m, _, restore_rejected_found_eq l b s m r' hl hb hcl hcb hx,
        hml, hmb, ?_, rfl, ?_, rfl, rfl, rfl, rfl, ?_, ?_⟩
      · rw [hdec, hrem]
        exact List.perm_middle
      · intro hle
        have := drop_pyInsert m s.current_index s.match_results hle
        rw [this]
        rfl
      · rw [List.length_append]
        rfl
      · exact List.getLast?_concat _
    · refine ⟨m, _, approve_rejected_found_eq l b s m r' hl hb hcl hcb hx,
        hml, hmb, ?_, rfl, rfl, rfl, rfl, rfl, ?_, ?_⟩
      · rw [hdec, hrem]
        exact List.perm_middle
      · rw [List.length_append]
        rfl
      · exact List.getLast?_concat _

/-- Concrete state with one rejected pairing and nothing claimed, plus a
two-entry pending queue, used by the C7 witness. -/
def sC7Ex : MatchState :=
  { emptyMatchState with
    match_results := [{ ledger_id := "L2", bank_id := some "B2" },
      { ledger_id := "L3", bank_id := some "B3" }]
    current_index := 1
    rejected_matches := [{ ledger_id := "L1", bank_id := some "B1" }] }

/-- Concrete state with the same rejected pairing but with the ledger id
claimed, used by the C7 witness's conflict branch. -/
def sC7ConflictEx : MatchState :=
  { sC7Ex with matched_ledger_ids := {"L1"} }

/-- C7 witness: on the concrete states, restore succeeds and reinserts at
the cursor (index 1), approve succeeds and claims both ids, the conflict
branch returns HTTP 400, and the absent-pairing branch returns HTTP 404. -/
theorem c7_restore_approve_witness :
    (∃ sn, restore_rejected_match "L1" "B1" sC7Ex = .ok sn ∧
      (sn.match_results.drop 1).head? =
        some { ledger_id := "L1", bank_id := some "B1" }) ∧
    (∃ sn, approve_rejected_match "L1" "B1" sC7Ex = .ok sn ∧
      sn.matched_ledger_ids = {"L1"}) ∧
    (∃ d, restore_rejected_match "L1" "B1" sC7ConflictEx =
      .error (.http 400 d)) ∧
    restore_rejected_match "L9" "B9" sC7Ex =
      .error (.http 404 "Rejected match not found") := by
  obtain ⟨hres, happ⟩ :=
    (c7_restore_approve sC7Ex "L1" "B1" (by decide) (by decide)).2.2
      (by decide) (by decide)
      ⟨{ ledger_id := "L1", bank_id := some "B1" }, by decide, by decide⟩
  obtain ⟨m, sn, heq, hml, hmb, _, _, hhead, hcur, _, _, _, _⟩ := hres
  obtain ⟨m', sn', heq', hml', hmb', _, _, hmli, _, _, _, _, _⟩ := happ
  have hm : m = { ledger_id := "L1", bank_id := some "B1" } := by
    cases m
    simp only [RMatch.mk.injEq]
    exact ⟨hml, hmb⟩
  refine ⟨⟨sn, heq, ?_⟩, ⟨sn', heq', ?_⟩, ?_, ?_⟩
  · have h1 := hhead (by decide)
    rw [← hm]
    exact h1
  · rw [hmli]
    rfl
  · obtain ⟨d, hd, _, _⟩ :=
      (c7_restore_approve sC7ConflictEx "L1" "B1" (by decide) (by decide)).1
        (Or.inl (by decide))
    exact ⟨d, hd⟩
  · exact ((c7_restore_approve sC7Ex "L9" "B9" (by decide) (by decide)).2.1
      (by decide) (by decide) (by decide)).1

/-- The entries that can still be claimed or reclaimed: the pending queue
ahead of the cursor, plus `confirmed_matches`, plus `rejected_matches`. -/
def activeEntries (s : MatchState) : List RMatch :=
  s.match_results.drop s.current_index ++ s.confirmed_matches ++
    s.rejected_matches

/-- Inductive invariant of the review state machine: the active entries
have pairwise-distinct ledger ids and pairwise-distinct bank ids, the
claimed sets are exactly the ids of `confirmed_matches`, and the cursor
never runs past the queue. -/
def ReviewInv (s : MatchState) : Prop :=
  ((activeEntries s).map (fun m => m.ledger_id)).Nodup ∧
  ((activeEntries s).filterMap (fun m => m.bank_id)).Nodup ∧
  (∀ x, x ∈ s.matched_ledger_ids ↔
    x ∈ s.confirmed_matches.map (fun m => m.ledger_id)) ∧
  (∀ x, x ∈ s.matched_bank_ids ↔
    x ∈ s.confirmed_matches.filterMap (fun m => m.bank_id)) ∧
  s.current_index ≤ s.match_results.length

/-- Moving the head pending entry to the end of the confirmed collection
is a permutation of the active entries. -/
lemma perm_active_act (r : α) (A C R : List α) :
    ((r :: A) ++ C ++ R).Perm (A ++ (C ++ [r]) ++ R) := by
  have h1 : (r :: A) ++ C ++ R = r :: (A ++ C ++ R) := by simp
  have h2 : A ++ (C ++ [r]) ++ R = (A ++ C) ++ r :: R := by simp
  rw [h1, h2]
  exact List.perm_middle.symm

/-- Moving one confirmed entry to the end of the rejected collection is a
permutation of the active entries. -/
lemma perm_active_rej (m : α) (P l₁ l₂ R : List α) :
    (P ++ (l₁ ++ m :: l₂) ++ R).Perm (P ++ (l₁ ++ l₂) ++ (R ++ [m])) := by
  have h1 : P ++ (l₁ ++ m :: l₂) ++ R = (P ++ l₁) ++ m :: (l₂ ++ R) := by simp
  have h2 : P ++ (l₁ ++ l₂) ++ (R ++ [m]) =
      ((P ++ l₁) ++ (l₂ ++ R)) ++ [m] := by simp
  rw [h1, h2]
  exact List.perm_middle.trans (List.perm_append_singleton m _).symm

/-- Moving one rejected entry to the head of the pending queue is a
permutation of the active entries. -/
lemma perm_active_res (m : α) (P C l₁ l₂ : List α) :
    (P ++ C ++ (l₁ ++ m :: l₂)).Perm ((m :: P) ++ C ++ (l₁ ++ l₂)) := by
  have h1 : P ++ C ++ (l₁ ++ m :: l₂) = (P ++ C ++ l₁) ++ m :: l₂ := by simp
  have h2 : (m :: P) ++ C ++ (l₁ ++ l₂) =
      m :: ((P ++ C ++ l₁) ++ l₂) := by simp
  rw [h1, h2]
  exact List.perm_middle

/-- Moving one rejected entry to the end of the confirmed collection is a
permutation of the active entries. -/
lemma perm_active_app (m : α) (P C l₁ l₂ : List α) :
    (P ++ C ++ (l₁ ++ m :: l₂)).Perm (P ++ (C ++ [m]) ++ (l₁ ++ l₂)) := by
  have h1 : P ++ C ++ (l₁ ++ m :: l₂) =
      ((P ++ C) ++ l₁) ++ m :: l₂ := by simp
  have h2 : P ++ (C ++ [m]) ++ (l₁ ++ l₂) =
      (P ++ C) ++ m :: (l₁ ++ l₂) := by simp
  rw [h1, h2]
  refine List.perm_middle.trans ?_
  rw [List.append_assoc]
  exact List.perm_middle.symm

/-- The middle component of a three-part concatenation of `Nodup` lists is
`Nodup`. -/
lemma nodup_middle₃ {L₁ L₂ L₃ : List β} (h : (L₁ ++ L₂ ++ L₃).Nodup) :
    L₂.Nodup :=
  (List.nodup_append.mp (List.nodup_append.mp h).1).2.1

/-- Updating an exactly-the-claimed-ids set after appending one confirmed
entry. -/
lemma claimed_iff_append {β : Type} [DecidableEq β] (C : List RMatch)
    (S : Finset β) (m : RMatch) (f : RMatch → β)
    (h : ∀ x, x ∈ S ↔ x ∈ C.map f) :
    ∀ x, x ∈ insert (f m) S ↔ x ∈ (C ++ [m]).map f := by
  intro x
  rw [Finset.mem_insert, List.map_append, List.mem_append, h x]
  simp [or_comm]

/-- `filterMap` variant of `claimed_iff_append` for the bank side. -/
lemma claimed_iff_append_bank (C : List RMatch) (S : Finset String)
    (m : RMatch) (bid : String) (hmb : m.bank_id = some bid)
    (h : ∀ x, x ∈ S ↔ x ∈ C.filterMap (fun m => m.bank_id)) :
    ∀ x, x ∈ insert bid S ↔
      x ∈ (C ++ [m]).filterMap (fun m => m.bank_id) := by
  intro x
  rw [Finset.mem_insert, List.filterMap_append, List.mem_append, h x]
  simp [List.filterMap_cons, hmb, or_comm]

/-- Erasing the id of a removed entry from an exactly-the-ids set, given
the id occurs exactly once (the surrounding list of ids is `Nodup`). -/
lemma mem_erase_iff_removed {S : Finset String} {l : String}
    {L₁ L₂ : List String}
    (hiff : ∀ x, x ∈ S ↔ x ∈ L₁ ++ l :: L₂)
    (hnodup : (L₁ ++ l :: L₂).Nodup) :
    ∀ x, x ∈ S.erase l ↔ x ∈ L₁ ++ L₂ := by
  intro x
  rw [Finset.mem_erase, hiff x]
  constructor
  · rintro ⟨hxl, hx⟩
    rcases List.mem_append.mp hx with h | h
    · exact List.mem_append.mpr (Or.inl h)
    · rcases List.mem_cons.mp h with rfl | h'
      · exact absurd rfl hxl
      · exact List.mem_append.mpr (Or.inr h')
  · intro hx
    have hxl : x ≠ l := by
      rintro rfl
      rcases List.mem_append.mp hx with h | h
      · exact (List.nodup_append.mp hnodup).2.2 h (List.mem_cons_self _ _)
      · exact (List.nodup_cons.mp (List.nodup_append.mp hnodup).2.1).1 h
    refine ⟨hxl, ?_⟩
    rcases List.mem_append.mp hx with h | h
    · exact List.mem_append.mpr (Or.inl h)
    · exact List.mem_append.mpr (Or.inr (List.mem_cons.mpr (Or.inr h)))

/-- The `match` review operation preserves the review-state invariant. -/
lemma inv_actMatch (notes : Option String) (s : MatchState)
    (h : ReviewInv s) : ReviewInv (applyReviewOp (.actMatch notes) s) := by
  obtain ⟨h1, h2, h3, h4, h5⟩ := h
  simp only [activeEntries] at h1 h2
  by_cases hcur : s.current_index < s.match_results.length
  · have hdrop : s.match_results.drop s.current_index =
        s.match_results.getD s.current_index dummyRMatch ::
          s.match_results.drop (s.current_index + 1) := by
      rw [List.getD_eq_getElem s.match_results dummyRMatch hcur]
      exact List.drop_eq_getElem_cons hcur
    rw [hdrop] at h1 h2
    cases hbank : (s.match_results.getD s.current_index dummyRMatch).bank_id with
    | some bid =>
      simp only [applyReviewOp, submit_match_some_eq notes s _ bid hcur rfl hbank]
      have hperm :=
        perm_active_act (s.match_results.getD s.current_index dummyRMatch)
          (s.match_results.drop (s.current_index + 1)) s.confirmed_matches
          s.rejected_matches
      refine ⟨?_, ?_, ?_, ?_, ?_⟩
      · show ((s.match_results.drop (s.current_index + 1) ++
            (s.confirmed_matches ++
              [s.match_results.getD s.current_index dummyRMatch]) ++
            s.rejected_matches).map (fun m => m.ledger_id)).Nodup
        exact ((hperm.map (fun m => m.ledger_id)).nodup_iff).mp h1
      · show ((s.match_results.drop (s.current_index + 1) ++
            (s.confirmed_matches ++
              [s.match_results.getD s.current_index dummyRMatch]) ++
            s.rejected_matches).filterMap (fun m => m.bank_id)).Nodup
        exact ((hperm.filterMap (fun m => m.bank_id)).nodup_iff).mp h2
      · exact claimed_iff_append s.confirmed_matches s.matched_ledger_ids _ _ h3
      · exact claimed_iff_append_bank s.confirmed_matches s.matched_bank_ids _
          bid hbank h4
      · exact hcur
    | none =>
      simp only [applyReviewOp,
        submit_fallthrough_eq "match" notes s hcur (Or.inr ⟨rfl, hbank⟩)]
      have he : (s.match_results.getD s.current_index dummyRMatch ::
            s.match_results.drop (s.current_index + 1)) ++
            s.confirmed_matches ++ s.rejected_matches =
          s.match_results.getD s.current_index dummyRMatch ::
            (s.match_results.drop (s.current_index + 1) ++
              s.confirmed_matches ++ s.rejected_matches) := by
        simp
      rw [he] at h1 h2
      refine ⟨?_, ?_, h3, h4, ?_⟩
      · show ((s.match_results.drop (s.current_index + 1) ++
            s.confirmed_matches ++ s.rejected_matches).map
              (fun m => m.ledger_id)).Nodup
        rw [List.map_cons] at h1
        exact (List.nodup_cons.mp h1).2
      · show ((s.match_results.drop (s.current_index + 1) ++
            s.confirmed_matches ++ s.rejected_matches).filterMap
              (fun m => m.bank_id)).Nodup
        simp only [List.filterMap_cons, hbank] at h2
        exact h2
      · exact hcur
  · simp only [applyReviewOp,
      submit_action_past_end "match" notes s (not_lt.mp hcur)]
    exact ⟨h1, h2, h3, h4, h5⟩

/-- The `reject_approved` operation preserves the review-state invariant. -/
lemma inv_rejectApproved (l b : String) (s : MatchState)
    (h : ReviewInv s) : ReviewInv (applyReviewOp (.rejectApproved l b) s) := by
  obtain ⟨h1, h2, h3, h4, h5⟩ := h
  by_cases hemp : l = "" ∨ b = ""
  · have he : reject_approved_match l b s =
        .error (.http 400 "ledger_id and bank_id are required") := by
      simp only [reject_approved_match, if_pos hemp]
    simp only [applyReviewOp, he]
    exact ⟨h1, h2, h3, h4, h5⟩
  · have hl : l ≠ "" := fun hc => hemp (Or.inl hc)
    have hb : b ≠ "" := fun hc => hemp (Or.inr hc)
    cases hx : extractFirst (pairMatches l b) s.confirmed_matches with
    | none =>
      simp only [applyReviewOp, reject_approved_not_found_eq l b s hl hb hx]
      exact ⟨h1, h2, h3, h4, h5⟩
    | some v =>
      obtain ⟨m, c'⟩ := v
      obtain ⟨hpm, l₁, l₂, hdec, hrem⟩ := extractFirst_some_spec _ _ _ _ hx
      obtain ⟨hml, hmb⟩ := (pairMatches_iff l b m).mp hpm
      simp only [applyReviewOp, reject_approved_found_eq l b s m c' hl hb hx]
      simp only [activeEntries] at h1 h2
      have hCl : (s.confirmed_matches.map (fun m => m.ledger_id)).Nodup := by
        have hc := h1
        rw [List.map_append, List.map_append] at hc
        exact nodup_middle₃ hc
      have hCb : (s.confirmed_matches.filterMap (fun m => m.bank_id)).Nodup := by
        have hc := h2
        rw [List.filterMap_append, List.filterMap_append] at hc
        exact nodup_middle₃ hc
      rw [hdec] at h1 h2
      have hperm := perm_active_rej m (s.match_results.drop s.current_index)
        l₁ l₂ s.rejected_matches
      refine ⟨?_, ?_, ?_, ?_, ?_⟩
      · show ((s.match_results.drop s.current_index ++ c' ++
            (s.rejected_matches ++ [m])).map (fun m => m.ledger_id)).Nodup
        rw [hrem]
        exact ((hperm.map _).nodup_iff).mp h1
      · show ((s.match_results.drop s.current_index ++ c' ++
            (s.rejected_matches ++ [m])).filterMap (fun m => m.bank_id)).Nodup
        rw [hrem]
        exact ((hperm.filterMap _).nodup_iff).mp h2
      · show ∀ x, x ∈ s.matched_ledger_ids.erase l ↔
            x ∈ c'.map (fun m => m.ledger_id)
        rw [hdec] at h3
        simp only [List.map_append, List.map_cons, hml] at h3
        rw [hdec] at hCl
        simp only [List.map_append, List.map_cons, hml] at hCl
        intro x
        rw [hrem, List.map_append]
        exact mem_erase_iff_removed h3 hCl x
      · show ∀ x, x ∈ s.matched_bank_ids.erase b ↔
            x ∈ c'.filterMap (fun m => m.bank_id)
        rw [hdec] at h4
        simp only [List.filterMap_append, List.filterMap_cons, hmb] at h4
        rw [hdec] at hCb
        simp only [List.filterMap_append, List.filterMap_cons, hmb] at hCb
        intro x
        rw [hrem, List.filterMap_append]
        exact mem_erase_iff_removed h4 hCb x
      · exact h5

/-- The `restore_rejected` operation preserves the review-state invariant. -/
lemma inv_restoreRejected (l b : String) (s : MatchState)
    (h : ReviewInv s) : ReviewInv (applyReviewOp (.restoreRejected l b) s) := by
  obtain ⟨h1, h2, h3, h4, h5⟩ := h
  by_cases hemp : l = "" ∨ b = ""
  · have he : restore_rejected_match l b s =
        .error (.http 400 "ledger_id and bank_id are required") := by
      simp only [restore_rejected_match, if_pos hemp]
    simp only [applyReviewOp, he]
    exact ⟨h1, h2, h3, h4, h5⟩
  · have hl : l ≠ "" := fun hc => hemp (Or.inl hc)
    have hb : b ≠ "" := fun hc => hemp (Or.inr hc)
    by_cases hcl : l ∈ s.matched_ledger_ids
    · have he : restore_rejected_match l b s = .error (.http 400
          "Ledger transaction is already matched to another bank transaction") := by
        simp only [restore_rejected_match, if_neg hemp, if_pos hcl]
      simp only [applyReviewOp, he]
      exact ⟨h1, h2, h3, h4, h5⟩
    · by_cases hcb : b ∈ s.matched_bank_ids
      · have he : restore_rejected_match l b s = .error (.http 400
            "Bank transaction is already matched to another ledger transaction") := by
          simp only [restore_rejected_match, if_neg hemp, if_neg hcl, if_pos hcb]
        simp only [applyReviewOp, he]
        exact ⟨h1, h2, h3, h4, h5⟩
      · cases hx : extractFirst (pairMatches l b) s.rejected_matches with
        | none =>
          simp only [applyReviewOp,
            (restore_approve_not_found_eq l b s hl hb hcl hcb hx).1]
          exact ⟨h1, h2, h3, h4, h5⟩
        | some v =>
          obtain ⟨m, r'⟩ := v
          obtain ⟨hpm, l₁, l₂, hdec, hrem⟩ := extractFirst_some_spec _ _ _ _ hx
          simp only [applyReviewOp,
            restore_rejected_found_eq l b s m r' hl hb hcl hcb hx]
          simp only [activeEntries] at h1 h2
          rw [hdec] at h1 h2
          have hperm := perm_active_res m
            (s.match_results.drop s.current_index) s.confirmed_matches l₁ l₂
          have hdi := drop_pyInsert m s.current_index s.match_results h5
          have hlen : (pyInsert s.match_results s.current_index m).length =
              s.match_results.length + 1 := by
            rw [pyInsert, min_eq_left h5]
            exact List.length_insertIdx _ _ h5
          refine ⟨?_, ?_, h3, h4, ?_⟩
          · show (((pyInsert s.match_results s.current_index m).drop
                s.current_index ++ s.confirmed_matches ++ r').map
                  (fun m => m.ledger_id)).Nodup
            rw [hdi, hrem]
            exact ((hperm.map _).nodup_iff).mp h1
          · show (((pyInsert s.match_results s.current_index m).drop
                s.current_index ++ s.confirmed_matches ++ r').filterMap
                  (fun m => m.bank_id)).Nodup
            rw [hdi, hrem]
            exact ((hperm.filterMap _).nodup_iff).mp h2
          · show s.current_index ≤
              (pyInsert s.match_results s.current_index m).length
            rw [hlen]
            exact h5.trans (Nat.le_succ _)

/-- The `approve_rejected` operation preserves the review-state
invariant. -/
lemma inv_approveRejected (l b : String) (s : MatchState)
    (h : ReviewInv s) : ReviewInv (applyReviewOp (.approveRejected l b) s) := by
  obtain ⟨h1, h2, h3, h4, h5⟩ := h
  by_cases hemp : l = "" ∨ b = ""
  · have he : approve_rejected_match l b s =
        .error (.http 400 "ledger_id and bank_id are required") := by
      simp only [approve_rejected_match, if_pos hemp]
    simp only [applyReviewOp, he]
    exact ⟨h1, h2, h3, h4, h5⟩
  · have hl : l ≠ "" := fun hc => hemp (Or.inl hc)
    have hb : b ≠ "" := fun hc => hemp (Or.inr hc)
    by_cases hcl : l ∈ s.matched_ledger_ids
    · have he : approve_rejected_match l b s = .error (.http 400
          "Ledger transaction is already matched to another bank transaction") := by
        simp only [approve_rejected_match, if_neg hemp, if_pos hcl]
      simp only [applyReviewOp, he]
      exact ⟨h1, h2, h3, h4, h5⟩
    · by_cases hcb : b ∈ s.matched_bank_ids
      · have he : approve_rejected_match l b s = .error (.http 400
            "Bank transaction is already matched to another ledger transaction") := by
          simp only [approve_rejected_match, if_neg hemp, if_neg hcl, if_pos hcb]
        simp only [applyReviewOp, he]
        exact ⟨h1, h2, h3, h4, h5⟩
      · cases hx : extractFirst (pairMatches l b) s.rejected_matches with
        | none =>
          simp only [applyReviewOp,
            (restore_approve_not_found_eq l b s hl hb hcl hcb hx).2]
          exact ⟨h1, h2, h3, h4, h5⟩
        | some v =>
          obtain ⟨m, r'⟩ := v
          obtain ⟨hpm, l₁, l₂, hdec, hrem⟩ := extractFirst_some_spec _ _ _ _ hx
          obtain ⟨hml, hmb⟩ := (pairMatches_iff l b m).mp hpm
          simp only [applyReviewOp,
            approve_rejected_found_eq l b s m r' hl hb hcl hcb hx]
          simp only [activeEntries] at h1 h2
          rw [hdec] at h1 h2
          have hperm := perm_active_app m
            (s.match_results.drop s.current_index) s.confirmed_matches l₁ l₂
          refine ⟨?_, ?_, ?_, ?_, h5⟩
          · show ((s.match_results.drop s.current_index ++
                (s.confirmed_matches ++ [m]) ++ r').map
                  (fun m => m.ledger_id)).Nodup
            rw [hrem]
            exact ((hperm.map _).nodup_iff).mp h1
          · show ((s.match_results.drop s.current_index ++
                (s.confirmed_matches ++ [m]) ++ r').filterMap
                  (fun m => m.bank_id)).Nodup
            rw [hrem]
            exact ((hperm.filterMap _).nodup_iff).mp h2
          · show ∀ x, x ∈ insert l s.matched_ledger_ids ↔
                x ∈ (s.confirmed_matches ++ [m]).map (fun m => m.ledger_id)
            rw [← hml]
            exact claimed_iff_append s.confirmed_matches s.matched_ledger_ids
              m (fun m => m.ledger_id) h3
          · show ∀ x, x ∈ insert b s.matched_bank_ids ↔
                x ∈ (s.confirmed_matches ++ [m]).filterMap (fun m => m.bank_id)
            exact claimed_iff_append_bank s.confirmed_matches
              s.matched_bank_ids m b hmb h4

/-- Every review operation preserves the review-state invariant. -/
lemma inv_applyReviewOp (op : ReviewOp) (s : MatchState) (h : ReviewInv s) :
    ReviewInv (applyReviewOp op s) := by
  cases op with
  | actMatch notes => exact inv_actMatch notes s h
  | rejectApproved l b => exact inv_rejectApproved l b s h
  | restoreRejected l b => exact inv_restoreRejected l b s h
  | approveRejected l b => exact inv_approveRejected l b s h

/-- The invariant holds after any sequence of review operations. -/
lemma inv_runReviewOps (ops : List ReviewOp) (s : MatchState)
    (h : ReviewInv s) : ReviewInv (runReviewOps ops s) := by
  induction ops generalizing s with
  | nil => exact h
  | cons op ops ih => exact ih _ (inv_applyReviewOp op s h)

/-- The invariant holds for a freshly reset session loaded with a
well-formed queue. -/
lemma inv_freshReviewState (ledger bank : List Txn) (qs : List RMatch)
    (hq : WFQueue qs) : ReviewInv (freshReviewState ledger bank qs) := by
  obtain ⟨hq1, hq2⟩ := hq
  refine ⟨?_, ?_, ?_, ?_, ?_⟩
  · show ((qs.drop 0 ++ ([] : List RMatch) ++ []).map
      (fun m : RMatch => m.ledger_id)).Nodup
    simpa using hq1
  · show ((qs.drop 0 ++ ([] : List RMatch) ++ []).filterMap
      (fun m : RMatch => m.bank_id)).Nodup
    simpa using hq2
  · intro x
    simp [freshReviewState, set_transactions, emptyMatchState]
  · intro x
    simp [freshReviewState, set_transactions, emptyMatchState]
  · show (0 : Nat) ≤ qs.length
    exact Nat.zero_le _

/-- C2: starting from a freshly reset review state loaded with the matched
bucket of a run (pairwise-distinct ledger ids and bank ids), after any
sequence of `match`/`reject_approved`/`restore_rejected`/`approve_rejected`
operations the ids of every confirmed pairing lie in the claimed sets, and
the claimed sets contain no id that appears in any rejected pairing. -/
theorem c2_claim_exclusivity (ledger bank : List Txn) (qs : List RMatch)
    (hq : WFQueue qs) (ops : List ReviewOp) :
    (∀ m ∈ (runReviewOps ops (freshReviewState ledger bank qs)).confirmed_matches,
      m.ledger_id ∈
        (runReviewOps ops (freshReviewState ledger bank qs)).matched_ledger_ids ∧
      ∀ bid, m.bank_id = some bid →
        bid ∈ (runReviewOps ops (freshReviewState ledger bank qs)).matched_bank_ids) ∧
    (∀ m ∈ (runReviewOps ops (freshReviewState ledger bank qs)).rejected_matches,
      m.ledger_id ∉
        (runReviewOps ops (freshReviewState ledger bank qs)).matched_ledger_ids ∧
      ∀ bid, m.bank_id = some bid →
        bid ∉ (runReviewOps ops (freshReviewState ledger bank qs)).matched_bank_ids) := by
  obtain ⟨h1, h2, h3, h4, _⟩ :=
    inv_runReviewOps ops _ (inv_freshReviewState ledger bank qs hq)
  simp only [activeEntries] at h1 h2
  refine ⟨?_, ?_⟩
  · intro m hm
    constructor
    · exact (h3 _).mpr (List.mem_map_of_mem _ hm)
    · intro bid hbid
      exact (h4 _).mpr (List.mem_filterMap.mpr ⟨m, hm, hbid⟩)
  · intro m hm
    constructor
    · intro hmem
      have hc := (h3 _).mp hmem
      rw [List.map_append, List.map_append] at h1
      exact (List.nodup_append.mp h1).2.2
        (List.mem_append.mpr (Or.inr hc)) (List.mem_map_of_mem _ hm)
    · intro bid hbid hmem
      have hc := (h4 _).mp hmem
      rw [List.filterMap_append, List.filterMap_append] at h2
      exact (List.nodup_append.mp h2).2.2
        (List.mem_append.mpr (Or.inr hc)) (List.mem_filterMap.mpr ⟨m, hm, hbid⟩)

/-- Concrete one-pairing queue for the C2 witness. -/
def c2QsEx : List RMatch := [{ ledger_id := "L1", bank_id := some "B1" }]

/-- Concrete operation sequence for the C2 witness: confirm, then reject
the approved match, then approve it again from rejected. -/
def c2OpsEx : List ReviewOp :=
  [.actMatch none, .rejectApproved "L1" "B1", .approveRejected "L1" "B1"]

/-- C2 witness: the claim instantiated at a concrete queue and a concrete
operation sequence exercising all three transition kinds. -/
theorem c2_claim_exclusivity_witness :
    (∀ m ∈ (runReviewOps c2OpsEx (freshReviewState [] [] c2QsEx)).confirmed_matches,
      m.ledger_id ∈
        (runReviewOps c2OpsEx (freshReviewState [] [] c2QsEx)).matched_ledger_ids ∧
      ∀ bid, m.bank_id = some bid →
        bid ∈ (runReviewOps c2OpsEx (freshReviewState [] [] c2QsEx)).matched_bank_ids) ∧
    (∀ m ∈ (runReviewOps c2OpsEx (freshReviewState [] [] c2QsEx)).rejected_matches,
      m.ledger_id ∉
        (runReviewOps c2OpsEx (freshReviewState [] [] c2QsEx)).matched_ledger_ids ∧
      ∀ bid, m.bank_id = some bid →
        bid ∉ (runReviewOps c2OpsEx (freshReviewState [] [] c2QsEx)).matched_bank_ids) :=
  c2_claim_exclusivity [] [] c2QsEx ⟨by decide, by decide⟩ c2OpsEx

/-- C8: the decision rules of `select_best_match` on a non-empty ranked
candidate list: with the capability unavailable it selects index 0 iff the
top score is ≥ 0.5 (else none); after a capability failure it selects
index 0 iff the top score is ≥ 0.6 (else none); and whenever a well-formed
response leads to a selection, the reported confidence is the blend
`0.6 * response confidence + 0.4 * heuristic score of the selection`. -/
theorem c8_selector_rules (c : MatchCandidate) (rest : List MatchCandidate) :
    ((select_best_match .unavailable (c :: rest)).1 = some 0 ↔ 1/2 ≤ c.score) ∧
    ((select_best_match .unavailable (c :: rest)).1 = none ↔ ¬1/2 ≤ c.score) ∧
    (∀ msg,
      ((select_best_match (.failed msg) (c :: rest)).1 = some 0 ↔
        3/5 ≤ c.score) ∧
      ((select_best_match (.failed msg) (c :: rest)).1 = none ↔
        ¬3/5 ≤ c.score)) ∧
    (∀ (k : Int) (conf : ℚ) (expl : String) (i : Nat),
      (select_best_match (.ok (some k) conf expl) (c :: rest)).1 = some i →
      (select_best_match (.ok (some k) conf expl) (c :: rest)).2.2 =
        conf * (3/5) + ((c :: rest).getD i dummyCandidate).score * (2/5)) := by
  have hu_pos : ∀ h : c.score ≥ 1/2, select_best_match .unavailable (c :: rest) =
      (some 0, "Best heuristic match selected (LLM unavailable)", c.score) :=
    fun h => by simp only [select_best_match, if_pos h]
  have hu_neg : ∀ _ : ¬c.score ≥ 1/2,
      select_best_match .unavailable (c :: rest) =
      (none, "No confident match found (LLM unavailable)", 0) :=
    fun h => by simp only [select_best_match, if_neg h]
  have hf_pos : ∀ (msg : String) (_ : c.score ≥ 3/5),
      select_best_match (.failed msg) (c :: rest) =
      (some 0, "Best heuristic match (LLM error: " ++ msg ++ ")", c.score) :=
    fun msg h => by simp only [select_best_match, if_pos h]
  have hf_neg : ∀ (msg : String) (_ : ¬c.score ≥ 3/5),
      select_best_match (.failed msg) (c :: rest) =
      (none, "No confident match (LLM error: " ++ msg ++ ")", 0) :=
    fun msg h => by simp only [select_best_match, if_neg h]
  refine ⟨?_, ?_, ?_, ?_⟩
  · by_cases h : c.score ≥ 1/2
    · rw [hu_pos h]
      exact iff_of_true rfl h
    · rw [hu_neg h]
      exact iff_of_false (by simp) h
  · by_cases h : c.score ≥ 1/2
    · rw [hu_pos h]
      exact iff_of_false (by simp) (fun hn => hn h)
    · rw [hu_neg h]
      exact iff_of_true rfl h
  · intro msg
    by_cases h : c.score ≥ 3/5
    · rw [hf_pos msg h]
      exact ⟨iff_of_true rfl h, iff_of_false (by simp) (fun hn => hn h)⟩
    · rw [hf_neg msg h]
      exact ⟨iff_of_false (by simp) h, iff_of_true rfl h⟩
  · intro k conf expl i hsel
    by_cases hk : 0 < k
    · by_cases hidx : (k - 1).toNat < (c :: rest).length
      · simp only [select_best_match, if_pos hk, if_pos hidx] at hsel ⊢
        obtain rfl : (k - 1).toNat = i := by simpa using hsel
        rfl
      · simp only [select_best_match, if_pos hk, if_neg hidx] at hsel
        exact absurd hsel (by simp)
    · simp only [select_best_match, if_neg hk] at hsel
      exact absurd hsel (by simp)

/-- Concrete candidate with heuristic score 0.7 for the C8 witness. -/
def candEx : MatchCandidate :=
  { ledger_txn := txnL1, bank_txn := txnB1, score := 7/10
    confidence := "Medium"
    component_scores :=
      { amount := 1, date := 1, vendor := 1, reference := 1, txn_type := 1 } }

/-- C8 witness: with a 0.7-score top candidate, the unavailable path
selects index 0 (0.7 ≥ 0.5), the failure path selects index 0
(0.7 ≥ 0.6), and a response selecting candidate 1 with confidence 0.5
reports the blend `0.5*0.6 + 0.7*0.4`. -/
theorem c8_selector_rules_witness :
    (select_best_match .unavailable [candEx]).1 = some 0 ∧
    (select_best_match (.failed "boom") [candEx]).1 = some 0 ∧
    (select_best_match (.ok (some 1) (1/2) "expl") [candEx]).2.2 =
      1/2 * (3/5) + (7/10) * (2/5) := by
  obtain ⟨hu, _, hf, hok⟩ := c8_selector_rules candEx []
  refine ⟨?_, ?_, ?_⟩
  · exact hu.mpr (by norm_num [candEx])
  · exact ((hf "boom").1).mpr (by norm_num [candEx])
  · have hsel :
        (select_best_match (.ok (some 1) (1/2) "expl") [candEx]).1 = some 0 :=
      rfl
    have hb := hok 1 (1/2) "expl" 0 hsel
    rw [hb]
    norm_num [candEx]

/-- C5 (amended, asynchronous path): the matched bucket produced by the
progressive background run lists its results in the order in which their
source ledger transactions were processed — the matched ledger ids form a
subsequence of the input ledger ids, with no re-sorting. -/
theorem c5_async_preserves_order (ext : ExtSim)
    (llm : Txn → List MatchCandidate → LLMOutcome) (e : MatchingEngine)
    (exL : Finset String) (bankF : List Txn) :
    ∀ (ledger : List Txn) (matched : Finset String),
      ((asyncRunLoop ext llm e exL bankF ledger matched).1.map
        (fun r => r.ledger_txn.id)).Sublist (ledger.map (fun t => t.id)) := by
  intro ledger
  induction ledger with
  | nil =>
    intro matched
    simp [asyncRunLoop]
  | cons lt rest ih =>
    intro matched
    by_cases hex : lt.id ∈ exL
    · simp only [asyncRunLoop, if_pos hex, List.map_cons]
      exact (ih matched).cons _
    · cases hc : find_candidates ext e lt bankF matched 5 with
      | nil =>
        simp only [asyncRunLoop, if_neg hex, hc, List.map_cons]
        exact (ih matched).cons _
      | cons c0 cs =>
        rcases hsel : (select_best_match (llm lt (c0 :: cs)) (c0 :: cs)).1
          with _ | i
        · simp only [asyncRunLoop, if_neg hex, hc, hsel, List.map_cons]
          exact (ih matched).cons _
        · simp only [asyncRunLoop, if_neg hex, hc, hsel, List.map_cons]
          exact (ih _).cons₂ _

/-- Ledger transaction processed first in the C5 counterexample; its best
candidate scores 14/15 ≈ 0.93. -/
def txnC5L1 : Txn :=
  { id := "L1", date := 10, vendor := "aaa", description := "", amount := 100
    txn_type := "money_out", reference := none }

/-- Bank counterpart of `txnC5L1` (one day apart). -/
def txnC5B1 : Txn :=
  { id := "B1", date := 11, vendor := "aaa", description := "", amount := 100
    txn_type := "money_out", reference := none }

/-- Ledger transaction processed second in the C5 counterexample; its best
candidate scores 39/40 = 0.975. -/
def txnC5L2 : Txn :=
  { id := "L2", date := 12, vendor := "zzz", description := "", amount := 100
    txn_type := "money_out", reference := none }

/-- Bank counterpart of `txnC5L2` (exact match). -/
def txnC5B2 : Txn :=
  { id := "B2", date := 12, vendor := "zzz", description := "", amount := 100
    txn_type := "money_out", reference := none }

/-- C5 counterexample: the synchronous `/run` endpoint re-sorts — with the
decision capability unavailable (deterministic heuristic fallback), the
matched bucket comes out ordered by confidence descending (`L2` before
`L1`), not in the processing order `L1`, `L2`, because
`evaluate_match_batch` sorts its results by confidence before the split. -/
theorem c5_counterexample :
    ((run_matching_results extSelfSim (fun _ _ => LLMOutcome.unavailable)
        engDefault [txnC5L1, txnC5L2] [txnC5B1, txnC5B2]).1.map
      (fun r => r.ledger_txn.id)) = ["L2", "L1"] ∧
    ([txnC5L1, txnC5L2].map (fun t => t.id)) = ["L1", "L2"] := by
  constructor
  · have h_az : (pyStrip (pyLower "aaa") = pyStrip (pyLower "zzz")) ↔ False :=
      iff_false_intro (by decide)
    have h_za : (pyStrip (pyLower "zzz") = pyStrip (pyLower "aaa")) ↔ False :=
      iff_false_intro (by decide)
    have hd1 : (decide ("B2" = "B1")) = false := rfl
    have hd2 : (decide ("B1" = "B1")) = true := rfl
    have hd3 : (decide ("B1" = "B2")) = false := rfl
    have hd4 : (decide ("B2" = "B2")) = true := rfl
    norm_num [hd1, hd2, hd3, hd4, run_matching_results, evaluate_match_batch,
      evalBatchLoop,
      find_candidates, compute_match_score, compute_amount_score,
      compute_date_score, compute_vendor_score, compute_reference_score,
      compute_txn_type_score, normType, hasRef, stableSortDesc, insertByDesc,
      select_best_match, extSelfSim, engDefault, MatchingEngine.init,
      txnC5L1, txnC5L2, txnC5B1, txnC5B2, List.filter, List.filterMap,
      h_az, h_za]
  · rfl
